import Mathlib

/-!
# Chatroom: gRPC infrastructure layer

A shallow embedding of `pkg/infrastructure/grpc.go` (server factory, client
factory, endpoint factory, logger adapter) together with the parts of the
libraries that the file configures: `prometheus` and
`go-grpc-middleware/providers/prometheus` (metric options),
`go-grpc-middleware/v2` (logging interceptor and its options, recovery,
unary retry interceptor), `grpc` (interceptor chaining, the check of
outgoing metadata), `go-kit` (transport client, circuit-breaker middleware,
`lb.Retry`) and `gobreaker`.  Calls of the client are unary calls, the calls
the endpoints of this repository make; streaming calls of the client are not
embedded.  Definitions of this repository keep their names; a definition
that stands for library code says so.

Go values of type `any` are a small sum type, mutable collaborators (logger,
counters, circuit breakers) are explicit state, a Go panic is the `error`
side of `Except`, and what the network, the clock and the caller's context
do during a call is an argument of the call.
-/

namespace Chatroom

/-! ## Go values, gRPC codes and errors -/

/-- Values of Go's `any` that reach this file, panic values and log fields:
a string, an `int`, a `bool`, a `float32` (by its text in Go's default
format), an `error` (by the text of `Error()`), a `fmt.Stringer` (by the text
of `String()`). -/
inductive Any where
  | str (s : String)
  | int (n : Int)
  | bool (b : Bool)
  | float32 (text : String)
  | err (text : String)
  | stringer (text : String)
deriving DecidableEq, Repr

/-- The verb `%s` of Go's `fmt` applied to one operand: a string is copied,
an `error` gives `Error()`, a `Stringer` gives `String()`, and an operand the
verb does not fit is rendered as `%!s(type=value)`. -/
def Any.formatS : Any → String
  | .str s => s
  | .err text => text
  | .stringer text => text
  | .int n => "%!s(int=" ++ toString n ++ ")"
  | .bool b => "%!s(bool=" ++ toString b ++ ")"
  | .float32 text => "%!s(float32=" ++ text ++ ")"

/-- The text of a value in Go's default format (`fmt.Sprint`, the verb
`%v`): the stringified value the specification speaks of.  It is not used by
the code; the messages the code builds are compared with it. -/
def Any.stringified : Any → String
  | .str s => s
  | .err text => text
  | .stringer text => text
  | .int n => toString n
  | .bool b => toString b
  | .float32 text => text

/-- Codes of `google.golang.org/grpc/codes`, in numeric order. -/
inductive Code where
  | OK | Canceled | Unknown | InvalidArgument | DeadlineExceeded | NotFound
  | AlreadyExists | PermissionDenied | ResourceExhausted | FailedPrecondition
  | Aborted | OutOfRange | Unimplemented | Internal | Unavailable | DataLoss
  | Unauthenticated
deriving DecidableEq, Repr

/-- The errors of package `context`: `context.DeadlineExceeded` and
`context.Canceled`. -/
inductive ContextErr where
  | DeadlineExceeded | Canceled
deriving DecidableEq, Repr

/-- The constant `time.Second`; durations and instants are in milliseconds. -/
def Second : Nat := 1000

/-- Errors that travel through the client and server paths: a gRPC status
error, the two rejections of `gobreaker`, `lb.RetryError` of go-kit, and the
two errors of package `context`. -/
inductive GoError where
  | status (code : Code) (msg : String)
  | errOpenState
  | errTooManyRequests
  | retryError (rawErrors : List GoError) (final : GoError)
  | context (ce : ContextErr)
deriving Repr

/-- Library function `status.Code`: the code of a status error; an error that
carries no status has code `Unknown`. -/
def GoError.code : GoError → Code
  | .status c _ => c
  | _ => .Unknown

/-- Library function `Code.String`. -/
def Code.String : Code → String
  | .OK => "OK"
  | .Canceled => "Canceled"
  | .Unknown => "Unknown"
  | .InvalidArgument => "InvalidArgument"
  | .DeadlineExceeded => "DeadlineExceeded"
  | .NotFound => "NotFound"
  | .AlreadyExists => "AlreadyExists"
  | .PermissionDenied => "PermissionDenied"
  | .ResourceExhausted => "ResourceExhausted"
  | .FailedPrecondition => "FailedPrecondition"
  | .Aborted => "Aborted"
  | .OutOfRange => "OutOfRange"
  | .Unimplemented => "Unimplemented"
  | .Internal => "Internal"
  | .Unavailable => "Unavailable"
  | .DataLoss => "DataLoss"
  | .Unauthenticated => "Unauthenticated"

mutual
/-- The method `Error()` of an error: the text of a status error of gRPC, of
the two errors of `gobreaker`, of `lb.RetryError` (the final error, then the
earlier raw errors) and of the two errors of package `context`. -/
def GoError.Error : GoError → String
  | .status c msg => "rpc error: code = " ++ c.String ++ " desc = " ++ msg
  | .errOpenState => "circuit breaker is open"
  | .errTooManyRequests => "too many requests"
  | .retryError rawErrors final =>
    final.Error ++
      (if rawErrors.length > 1 then
        " (previously: " ++ "; ".intercalate (GoError.Errors rawErrors).dropLast ++ ")"
      else "")
  | .context .DeadlineExceeded => "context deadline exceeded"
  | .context .Canceled => "context canceled"
/-- The texts of a list of errors. -/
def GoError.Errors : List GoError → List String
  | [] => []
  | e :: es => e.Error :: GoError.Errors es
end

/-- Library function `status.Errorf(c, format, a...)` for the one format used here, `"%s"`:
the status error with code `c` and message `fmt.Sprintf("%s", p)`. -/
def statusErrorfS (c : Code) (p : Any) : GoError :=
  .status c p.formatS

/-! ## Logger handle (`common.GrpcLog`) -/

/-- The four logging methods of `slog.Logger` that the adapter calls. -/
inductive LogMethod where
  | Debug | Info | Warn | Error
deriving DecidableEq, Repr

/-- One call of a logging method: which method, the message, the arguments. -/
structure LogCall where
  method : LogMethod
  msg : String
  args : List Any
deriving DecidableEq, Repr

/-- A `common.GrpcLog` handle, observed through the method calls made on it
(oldest first). -/
structure GrpcLog where
  calls : List LogCall
deriving DecidableEq, Repr

def GrpcLog.Debug (l : GrpcLog) (msg : String) (args : List Any) : GrpcLog :=
  ⟨l.calls ++ [⟨.Debug, msg, args⟩]⟩

def GrpcLog.Info (l : GrpcLog) (msg : String) (args : List Any) : GrpcLog :=
  ⟨l.calls ++ [⟨.Info, msg, args⟩]⟩

def GrpcLog.Warn (l : GrpcLog) (msg : String) (args : List Any) : GrpcLog :=
  ⟨l.calls ++ [⟨.Warn, msg, args⟩]⟩

def GrpcLog.Error (l : GrpcLog) (msg : String) (args : List Any) : GrpcLog :=
  ⟨l.calls ++ [⟨.Error, msg, args⟩]⟩

/-! ## `interceptorLogger` -/

/-- The type `logging.Level` is a Go `int`. -/
abbrev Level := Int

def LevelDebug : Level := -4
def LevelInfo : Level := 0
def LevelWarn : Level := 4
def LevelError : Level := 8

/-- The adapter `interceptorLogger(l)` applied to one log request.  The
context argument is ignored by the source and left out.  `Except.error p`
is a panic with value `p`; `Except.ok` carries the logger after the call. -/
def interceptorLogger (l : GrpcLog) (lvl : Level) (msg : String) (fields : List Any) :
    Except Any GrpcLog :=
  if lvl = LevelDebug then .ok (l.Debug msg fields)
  else if lvl = LevelInfo then .ok (l.Info msg fields)
  else if lvl = LevelWarn then .ok (l.Warn msg fields)
  else if lvl = LevelError then .ok (l.Error msg fields)
  else .error (.str ("unknown level " ++ toString lvl))

/-! ## Encoder and decoder of the transport client -/

/-- A Go result pair `(value, error)`. -/
structure GoResult (α : Type) where
  value : α
  err : Option GoError

def encodeGRPCRequest {Ctx α : Type} (_ : Ctx) (request : α) : GoResult α :=
  ⟨request, none⟩

def decodeGRPCResponse {Ctx α : Type} (_ : Ctx) (grpcReply : α) : GoResult α :=
  ⟨grpcReply, none⟩

/-! ## Prometheus options (`prometheus`, `providers/prometheus`) -/

/-- The type `prometheus.Labels`; the nil map is the empty list. -/
abbrev Labels := List (String × String)

/-- The type `prometheus.CounterOpts`. -/
structure CounterOpts where
  Namespace : String
  Subsystem : String
  Name : String
  Help : String
  ConstLabels : Labels
deriving DecidableEq, Repr

/-- The type `prometheus.HistogramOpts`; bucket bounds are in milliseconds
(the source writes them in seconds as floats). -/
structure HistogramOpts where
  Namespace : String
  Subsystem : String
  Name : String
  Help : String
  ConstLabels : Labels
  Buckets : List Nat
deriving DecidableEq, Repr

/-- The list `prometheus.DefBuckets`, in milliseconds. -/
def DefBuckets : List Nat := [5, 10, 25, 50, 100, 250, 500, 1000, 2500, 5000, 10000]

abbrev CounterOption := CounterOpts → CounterOpts
abbrev HistogramOption := HistogramOpts → HistogramOpts

/-- Library function `counterOptions.apply`: run every option over the options value, in order. -/
def counterOptionsApply (co : List CounterOption) (o : CounterOpts) : CounterOpts :=
  co.foldl (fun acc f => f acc) o

/-- Library function `histogramOptions.apply`. -/
def histogramOptionsApply (ho : List HistogramOption) (o : HistogramOpts) : HistogramOpts :=
  ho.foldl (fun acc f => f acc) o

def WithConstLabels (labels : Labels) : CounterOption :=
  fun o => { o with ConstLabels := labels }

def WithHistogramConstLabels (labels : Labels) : HistogramOption :=
  fun o => { o with ConstLabels := labels }

def WithHistogramBuckets (buckets : List Nat) : HistogramOption :=
  fun o => { o with Buckets := buckets }

/-- The struct `serverMetricsConfig`; the histogram vector is kept by the
options it was built from, `none` when no histogram was asked for. -/
structure serverMetricsConfig where
  counterOpts : List CounterOption
  serverHandledHistogram : Option HistogramOpts

abbrev ServerMetricsOption := serverMetricsConfig → serverMetricsConfig

def WithServerCounterOptions (opts : List CounterOption) : ServerMetricsOption :=
  fun c => { c with counterOpts := opts }

def WithServerHandlingTimeHistogram (opts : List HistogramOption) : ServerMetricsOption :=
  fun c => { c with serverHandledHistogram := some (histogramOptionsApply opts
    { Namespace := "", Subsystem := "", Name := "grpc_server_handling_seconds",
      Help := "Histogram of response latency (seconds) of gRPC that had been application-level handled by the server.",
      ConstLabels := [], Buckets := DefBuckets }) }

/-- The struct `grpcprom.ServerMetrics`: four counter vectors and the
optional handling-time histogram, each kept by its options. -/
structure ServerMetrics where
  serverStartedCounter : CounterOpts
  serverHandledCounter : CounterOpts
  serverStreamMsgReceived : CounterOpts
  serverStreamMsgSent : CounterOpts
  serverHandledHistogram : Option HistogramOpts
deriving DecidableEq, Repr

/-- A counter's base options as `NewServerMetrics` writes them. -/
def baseCounter (name help : String) : CounterOpts :=
  { Namespace := "", Subsystem := "", Name := name, Help := help, ConstLabels := [] }

def NewServerMetrics (opts : List ServerMetricsOption) : ServerMetrics :=
  let config := opts.foldl (fun c o => o c) { counterOpts := [], serverHandledHistogram := none }
  { serverStartedCounter := counterOptionsApply config.counterOpts
      (baseCounter "grpc_server_started_total" "Total number of RPCs started on the server.")
    serverHandledCounter := counterOptionsApply config.counterOpts
      (baseCounter "grpc_server_handled_total"
        "Total number of RPCs completed on the server, regardless of success or failure.")
    serverStreamMsgReceived := counterOptionsApply config.counterOpts
      (baseCounter "grpc_server_msg_received_total"
        "Total number of RPC stream messages received on the server.")
    serverStreamMsgSent := counterOptionsApply config.counterOpts
      (baseCounter "grpc_server_msg_sent_total"
        "Total number of gRPC stream messages sent by the server.")
    serverHandledHistogram := config.serverHandledHistogram }

/-- What a registered metric carries, whichever its kind. -/
structure MetricDesc where
  isHistogram : Bool
  Namespace : String
  Name : String
  ConstLabels : Labels
deriving DecidableEq, Repr

def CounterOpts.desc (o : CounterOpts) : MetricDesc :=
  { isHistogram := false, Namespace := o.Namespace, Name := o.Name, ConstLabels := o.ConstLabels }

def HistogramOpts.desc (o : HistogramOpts) : MetricDesc :=
  { isHistogram := true, Namespace := o.Namespace, Name := o.Name, ConstLabels := o.ConstLabels }

/-- The collectors of a `ServerMetrics`, as `Describe`/`Collect` visit them. -/
def ServerMetrics.descs (m : ServerMetrics) : List MetricDesc :=
  [m.serverStartedCounter.desc, m.serverHandledCounter.desc,
   m.serverStreamMsgReceived.desc, m.serverStreamMsgSent.desc] ++
  (match m.serverHandledHistogram with
   | some h => [h.desc]
   | none => [])

/-! ## Trace context (`go.opentelemetry.io/otel/trace`) -/

/-- A span context: the trace id by its hexadecimal text and the flags byte. -/
structure SpanContext where
  traceID : String
  traceFlags : Nat
deriving DecidableEq, Repr

/-- Library function `SpanContext.IsSampled`: the lowest bit of the flags is set. -/
def SpanContext.IsSampled (sc : SpanContext) : Bool :=
  sc.traceFlags % 256 % 2 = 1

/-- A `context.Context`, by the span it carries. -/
structure Context where
  span : Option SpanContext
deriving DecidableEq, Repr

/-- Library function `trace.SpanContextFromContext`: the span context of the span in the
context, the zero span context when there is none. -/
def SpanContextFromContext (ctx : Context) : SpanContext :=
  match ctx.span with
  | some sc => sc
  | none => { traceID := "00000000000000000000000000000000", traceFlags := 0 }

/-! ## Logging interceptor options (`interceptors/logging`) -/

/-- The type `logging.Fields`: alternating keys and values; nil is empty. -/
abbrev Fields := List Any

inductive LoggableEvent where
  | StartCall | FinishCall | PayloadReceived | PayloadSent
deriving DecidableEq, Repr

/-- The duration-field functions of the library, by name. -/
inductive DurationToFields where
  | DurationToTimeMillisFields
  | DurationToDurationField
deriving DecidableEq, Repr

/-- The code-to-level function the server interceptors of the library set, by name. -/
inductive CodeToLevel where
  | DefaultServerCodeToLevel
deriving DecidableEq, Repr

/-- Library function `DefaultServerCodeToLevel`. -/
def DefaultServerCodeToLevel : Code → Level
  | .OK | .NotFound | .Canceled | .AlreadyExists | .InvalidArgument | .Unauthenticated =>
    LevelInfo
  | .DeadlineExceeded | .PermissionDenied | .ResourceExhausted | .FailedPrecondition
  | .Aborted | .OutOfRange | .Unavailable => LevelWarn
  | .Unknown | .Unimplemented | .Internal | .DataLoss => LevelError

def CodeToLevel.apply : CodeToLevel → Code → Level
  | .DefaultServerCodeToLevel => Chatroom.DefaultServerCodeToLevel

/-- Library function `DefaultErrorToCode`, the code function of the options, which no
option of this server replaces: `status.Code(err)`, OK for a nil error. -/
def DefaultErrorToCode : Option GoError → Code
  | none => .OK
  | some e => e.code

/-- Whether the fields have the key `k`. -/
def Fields.hasKey : Fields → Any → Bool
  | k2 :: _ :: rest, k => k2 == k || Fields.hasKey rest k
  | _, _ => false

/-- The value under the first occurrence of the key `k`. -/
def Fields.lookup : Fields → Any → Option Any
  | k2 :: v :: rest, k => if k2 == k then some v else Fields.lookup rest k
  | _, _ => none

/-- Library function `Fields.AppendUnique`: the fields of `add` whose key does not
occur yet are appended, pair by pair. -/
def Fields.AppendUnique : Fields → Fields → Fields
  | f, k :: v :: rest => Fields.AppendUnique (if Fields.hasKey f k then f else f ++ [k, v]) rest
  | f, _ => f

/-- The key of the duration field a duration function writes. -/
def DurationToFields.key : DurationToFields → String
  | .DurationToTimeMillisFields => "grpc.time_ms"
  | .DurationToDurationField => "grpc.duration"

/-- A duration function applied to a time elapsed.  The time elapsed is given
by the value each duration function makes of it: a `float32` of milliseconds
for `DurationToTimeMillisFields`, a `time.Duration` for
`DurationToDurationField`. -/
def DurationToFields.fields (f : DurationToFields) (elapsed : DurationToFields → Any) : Fields :=
  [.str f.key, elapsed f]

/-- The struct `logging.options`. -/
structure LoggingOptions where
  levelFunc : Option CodeToLevel
  loggableEvents : List LoggableEvent
  durationFieldFunc : DurationToFields
  timestampFormat : String
  fieldsFromCtxFn : Option (Context → Fields)

abbrev LoggingOption := LoggingOptions → LoggingOptions

/-- The library's `DefaultDurationToFields`. -/
def DefaultDurationToFields : DurationToFields := .DurationToTimeMillisFields

/-- The library's `defaultOptions`. -/
def defaultOptions : LoggingOptions :=
  { levelFunc := none
    loggableEvents := [.StartCall, .FinishCall]
    durationFieldFunc := DefaultDurationToFields
    timestampFormat := "2006-01-02T15:04:05Z07:00"
    fieldsFromCtxFn := none }

def WithLogOnEvents (events : List LoggableEvent) : LoggingOption :=
  fun o => { o with loggableEvents := events }

def WithDurationField (f : DurationToFields) : LoggingOption :=
  fun o => { o with durationFieldFunc := f }

def WithFieldsFromContext (f : Context → Fields) : LoggingOption :=
  fun o => { o with fieldsFromCtxFn := some f }

/-- Library function `evaluateServerOpt`, with the defaults it starts from as an
argument: copy the defaults, set the server level function, then run the
options in order. -/
def evaluateServerOptFrom (defaults : LoggingOptions) (opts : List LoggingOption) :
    LoggingOptions :=
  opts.foldl (fun o f => f o) { defaults with levelFunc := some .DefaultServerCodeToLevel }

/-- Library function `evaluateServerOpt`. -/
def evaluateServerOpt (opts : List LoggingOption) : LoggingOptions :=
  evaluateServerOptFrom defaultOptions opts

/-! ## `InitializeGrpcServer` -/

/-- The mutable collaborators the recovery handler closes over: the value of
the counter `panicsTotal` and the injected logger. -/
structure RecoveryState where
  panicsTotal : Nat
  logger : GrpcLog
deriving DecidableEq, Repr

/-- The closure `grpcPanicRecoveryHandler` of `InitializeGrpcServer`; `stack`
is what `debug.Stack()` returns at the call. -/
def grpcPanicRecoveryHandler (stack : String) (p : Any) (st : RecoveryState) :
    RecoveryState × GoError :=
  let st1 := { st with panicsTotal := st.panicsTotal + 1 }
  let st2 := { st1 with logger := st1.logger.Error ("recovered from panic, stack: " ++ stack) [] }
  (st2, statusErrorfS .Internal p)

/-- The closure `exemplarFromContext` of `InitializeGrpcServer`. -/
def exemplarFromContext (ctx : Context) : Labels :=
  if (SpanContextFromContext ctx).IsSampled then
    [("traceID", (SpanContextFromContext ctx).traceID)]
  else []

/-- The closure `logTraceID` of `InitializeGrpcServer`. -/
def logTraceID (ctx : Context) : Fields :=
  if (SpanContextFromContext ctx).IsSampled then
    [.str "traceID", .str (SpanContextFromContext ctx).traceID]
  else []

/-- The slice `logOpts` of `InitializeGrpcServer`. -/
def logOpts : List LoggingOption :=
  [WithLogOnEvents [.StartCall, .FinishCall],
   WithDurationField .DurationToTimeMillisFields,
   WithFieldsFromContext logTraceID]

/-- The value `srvMetrics` of `InitializeGrpcServer`. -/
def srvMetrics (name : String) : ServerMetrics :=
  NewServerMetrics
    [WithServerCounterOptions
       [fun o => { o with Namespace := name },
        WithConstLabels [("serviceID", name)]],
     WithServerHandlingTimeHistogram
       [WithHistogramConstLabels [("serviceID", name)],
        WithHistogramBuckets [1, 10, 100, 300, 600, 1000, 3000, 6000, 9000, 20000, 30000,
          60000, 90000, 120000]]]

/-- The options of the counter `panicsTotal` of `InitializeGrpcServer`. -/
def panicsTotal (name : String) : CounterOpts :=
  { Namespace := name
    Subsystem := ""
    Name := "grpc_req_panics_recovered_total"
    Help := "Total number of gRPC requests recovered from internal panic."
    ConstLabels := [("serviceID", name)] }

/-- The two flavours each interceptor constructor of the libraries comes in:
`UnaryServerInterceptor` and `StreamServerInterceptor`. -/
inductive RpcKind where
  | unary | stream
deriving DecidableEq, Repr

/-- A server interceptor as `InitializeGrpcServer` builds it: its flavour and
what it was configured with. -/
inductive Interceptor where
  | otel (rpc : RpcKind)
  | metrics (rpc : RpcKind) (m : ServerMetrics) (exemplar : Context → Labels)
  | logging (rpc : RpcKind) (logger : GrpcLog) (opts : LoggingOptions)
  | recovery (rpc : RpcKind)
      (handler : String → Any → RecoveryState → RecoveryState × GoError)

/-- The four roles an interceptor of the server plays. -/
inductive InterceptorKind where
  | tracePropagation | requestMetrics | structuredLogging | panicRecovery
deriving DecidableEq, Repr

def Interceptor.kind : Interceptor → InterceptorKind
  | .otel _ => .tracePropagation
  | .metrics _ _ _ => .requestMetrics
  | .logging _ _ _ => .structuredLogging
  | .recovery _ _ => .panicRecovery

/-- The struct `keepalive.EnforcementPolicy`. -/
structure EnforcementPolicy where
  MinTime : Nat
  PermitWithoutStream : Bool
deriving DecidableEq, Repr

/-- The struct `keepalive.ServerParameters`. -/
structure ServerParameters where
  MaxConnectionIdle : Nat
  MaxConnectionAge : Nat
  MaxConnectionAgeGrace : Nat
  Time : Nat
  Timeout : Nat
deriving DecidableEq, Repr

/-- What `InitializeGrpcServer` sets up: the server options, the interceptor
chains and the metrics it registers. -/
structure GrpcServer where
  MaxRecvMsgSize : Nat
  KeepaliveEnforcementPolicy : EnforcementPolicy
  KeepaliveParams : ServerParameters
  ChainStreamInterceptor : List Interceptor
  ChainUnaryInterceptor : List Interceptor
  srvMetrics : ServerMetrics
  panicsTotal : CounterOpts

def InitializeGrpcServer (name : String) (logger : GrpcLog) : GrpcServer :=
  { MaxRecvMsgSize := 1024 * 1024 * 8
    KeepaliveEnforcementPolicy := { MinTime := 5 * Second, PermitWithoutStream := true }
    KeepaliveParams :=
      { MaxConnectionIdle := 15 * Second, MaxConnectionAge := 600 * Second,
        MaxConnectionAgeGrace := 5 * Second, Time := 5 * Second, Timeout := 1 * Second }
    ChainStreamInterceptor :=
      [.otel .stream,
       .metrics .stream (srvMetrics name) exemplarFromContext,
       .logging .stream logger (evaluateServerOpt logOpts),
       .recovery .stream grpcPanicRecoveryHandler]
    ChainUnaryInterceptor :=
      [.otel .unary,
       .metrics .unary (srvMetrics name) exemplarFromContext,
       .logging .unary logger (evaluateServerOpt [WithFieldsFromContext logTraceID]),
       .recovery .unary grpcPanicRecoveryHandler]
    srvMetrics := srvMetrics name
    panicsTotal := panicsTotal name }

/-- Every metric `InitializeGrpcServer` creates: the collectors of
`srvMetrics` and the panic counter. -/
def GrpcServer.metrics (s : GrpcServer) : List MetricDesc :=
  s.srvMetrics.descs ++ [s.panicsTotal.desc]

/-- The logger and the options of the logging interceptor of a chain, when
it has one. -/
def loggingInterceptorOf : List Interceptor → Option (GrpcLog × LoggingOptions)
  | [] => none
  | .logging _ logger opts :: _ => some (logger, opts)
  | _ :: rest => loggingInterceptorOf rest

/-! ### Running a chain

A handler works on the state of the call: the recovery state (counter and
injected logger), a trace of events, and what the logging interceptor keeps
for the call.  It ends with a reply, an error or a panic.  Interceptors are
chained as gRPC does it: the first of the list is called first and gets the
rest as its handler. -/

/-- What a handler ends with. -/
inductive Outcome where
  | reply
  | failed (e : GoError)
  | panicked (p : Any)

/-- The error a handler returned (`none` is nil). -/
def Outcome.err : Outcome → Option GoError
  | .failed e => some e
  | _ => none

/-- What a handler that returns `err` ends with (`none` is nil). -/
def Outcome.returned : Option GoError → Outcome
  | none => .reply
  | some e => .failed e

/-- What interceptors leave in the trace: each marks where it starts and,
when its handler returned to it, where it ends. -/
inductive Event where
  | enter (k : InterceptorKind)
  | leave (k : InterceptorKind)
  | handler
deriving DecidableEq, Repr

/-- What the logging interceptor is given by a call, besides its options: the
context it is called with (the one trace propagation made), the fields the
library derives from the call itself (protocol, component, service, method,
method type, peer address, start time, deadline), and the time elapsed when
the start record and when the finish record is written, each by the value
the duration functions of the library make of it. -/
structure CallInfo where
  ctx : Context
  fields : Fields
  startElapsed : DurationToFields → Any
  finishElapsed : DurationToFields → Any

/-- The state a call runs on.  The injected logger is the one of the
recovery state: the logging interceptor and the recovery handler write to the
same logger.  `streamReporter` holds the options of the logging interceptor
while its reporter watches the stream of a streaming call, and
`startCallLogged` is the flag of that name of the reporter. -/
structure CallState where
  recovery : RecoveryState
  trace : List Event
  call : CallInfo
  streamReporter : Option LoggingOptions
  startCallLogged : Bool

abbrev Handler := CallState → CallState × Outcome

def CallState.emit (st : CallState) (e : Event) : CallState :=
  { st with trace := st.trace ++ [e] }

/-- One record written through the adapter `interceptorLogger(logger)`; a
panic of the adapter is passed on. -/
def CallState.Log (st : CallState) (lvl : Level) (msg : String) (fields : Fields) :
    Except Any CallState :=
  match interceptorLogger st.recovery.logger lvl msg fields with
  | .error p => .error p
  | .ok l => .ok { st with recovery := { st.recovery with logger := l } }

/-- The panic of Go's runtime when a nil function is called. -/
def nilDereference : Any :=
  .err "runtime error: invalid memory address or nil pointer dereference"

/-- The fields of the reporter the logging interceptor makes for a call: the
fields of the context function come first and win over the call's fields of
the same key.  Nothing in this server injects fields into the context, so
`ExtractFields` adds none. -/
def reporter.fields (opts : LoggingOptions) (call : CallInfo) : Fields :=
  match opts.fieldsFromCtxFn with
  | some f => Fields.AppendUnique (f call.ctx) call.fields
  | none => call.fields

/-- Library functions `reporter.PostMsgReceive` and `reporter.PostMsgSend`, which differ
only in the payload event they look at: the first of them writes the record
`started call` when the options log the start of calls.  The record of the
payload, written only under the events `PayloadReceived` and `PayloadSent`,
which neither chain of this server sets, is not part of the embedding. -/
def reporter.PostMsg (opts : LoggingOptions) (err : Option GoError)
    (elapsed : DurationToFields → Any) (st : CallState) : Except Any CallState :=
  match opts.levelFunc with
  | none => .error nilDereference
  | some levelFunc =>
    let logLvl := levelFunc.apply (DefaultErrorToCode err)
    let fields := reporter.fields opts st.call
    let fields := match err with
      | some e => Fields.AppendUnique fields [.str "grpc.error", .str e.Error]
      | none => fields
    if !st.startCallLogged && opts.loggableEvents.contains .StartCall then
      ({ st with startCallLogged := true }).Log logLvl "started call"
        (Fields.AppendUnique fields (opts.durationFieldFunc.fields elapsed))
    else .ok st

/-- Library function `reporter.PostCall`: the record `finished call`, when the
options log the end of calls. -/
def reporter.PostCall (opts : LoggingOptions) (err : Option GoError)
    (elapsed : DurationToFields → Any) (st : CallState) : Except Any CallState :=
  if !opts.loggableEvents.contains .FinishCall then .ok st
  else
    match opts.levelFunc with
    | none => .error nilDereference
    | some levelFunc =>
      let code := DefaultErrorToCode err
      let fields := reporter.fields opts st.call
      let fields := Fields.AppendUnique fields [.str "grpc.code", .str code.String]
      let fields := match err with
        | some e => Fields.AppendUnique fields [.str "grpc.error", .str e.Error]
        | none => fields
      st.Log (levelFunc.apply code) "finished call"
        (Fields.AppendUnique fields (opts.durationFieldFunc.fields elapsed))

/-- The fields of the finish record of the logging interceptor of this
server before the duration is added: the fields of `logTraceID`, the fields
of the call, the code and, for an error, its text. -/
def finishFields (call : CallInfo) (err : Option GoError) : Fields :=
  match err with
  | some e =>
    Fields.AppendUnique
      (Fields.AppendUnique (Fields.AppendUnique (logTraceID call.ctx) call.fields)
        [.str "grpc.code", .str (DefaultErrorToCode err).String])
      [.str "grpc.error", .str e.Error]
  | none =>
    Fields.AppendUnique (Fields.AppendUnique (logTraceID call.ctx) call.fields)
      [.str "grpc.code", .str (DefaultErrorToCode err).String]

/-- One message received or sent on the stream of a call, without error: the
stream the logging interceptor hands to a streaming handler reports every
message to its reporter (`monitoredServerStream.RecvMsg`, `SendMsg`).  A
unary call has no such stream. -/
def CallState.streamMsg (st : CallState) : Except Any CallState :=
  match st.streamReporter with
  | none => .ok st
  | some opts => reporter.PostMsg opts none st.call.startElapsed st

/-- One interceptor around a handler.  The recovery interceptor recovers a
panic of its handler and returns what the recovery handler returns.  The
unary logging interceptor reports the request before the handler and the
response and the end of the call after it; the streaming one wraps the
stream, so that messages are reported as the handler exchanges them, and
reports the end of the call.  A chain has one logging interceptor.  Trace
propagation and metrics do their work before and after the handler.  All but
recovery let a panic pass (their work after the handler is then skipped). -/
def Interceptor.wrap (stack : String) (i : Interceptor) (next : Handler) : Handler :=
  fun st =>
    match i with
    | .recovery _ h =>
      match next (st.emit (.enter .panicRecovery)) with
      | (st1, .panicked p) =>
        let r := h stack p st1.recovery
        (({ st1 with recovery := r.1 }).emit (.leave .panicRecovery), .failed r.2)
      | (st1, out) => (st1.emit (.leave .panicRecovery), out)
    | .logging .unary _ opts =>
      let st0 := { st with streamReporter := none, startCallLogged := false }
      match reporter.PostMsg opts none st0.call.startElapsed st0 with
      | .error p => (st0, .panicked p)
      | .ok st1 =>
        match next (st1.emit (.enter .structuredLogging)) with
        | (st2, .panicked p) => (st2, .panicked p)
        | (st2, out) =>
          match reporter.PostMsg opts out.err st2.call.finishElapsed st2 with
          | .error p => (st2, .panicked p)
          | .ok st3 =>
            match reporter.PostCall opts out.err st3.call.finishElapsed st3 with
            | .error p => (st3, .panicked p)
            | .ok st4 => (st4.emit (.leave .structuredLogging), out)
    | .logging .stream _ opts =>
      let st0 := { st with streamReporter := some opts, startCallLogged := false }
      match next (st0.emit (.enter .structuredLogging)) with
      | (st2, .panicked p) => (st2, .panicked p)
      | (st2, out) =>
        match reporter.PostCall opts out.err st2.call.finishElapsed st2 with
        | .error p => (st2, .panicked p)
        | .ok st4 => (st4.emit (.leave .structuredLogging), out)
    | other =>
      match next (st.emit (.enter other.kind)) with
      | (st1, .panicked p) => (st1, .panicked p)
      | (st1, out) => (st1.emit (.leave other.kind), out)

/-- Library function `chainUnaryInterceptors` / `chainStreamInterceptors` of gRPC. -/
def chainInterceptors (stack : String) : List Interceptor → Handler → Handler
  | [], final => final
  | i :: rest, final => i.wrap stack (chainInterceptors stack rest final)

/-- A handler body: it records that it ran and ends with `out`. -/
def handlerEnding (out : Outcome) : Handler :=
  fun st => (st.emit .handler, out)

/-- The handler receives or sends `messages` messages on its stream, one
after the other. -/
def exchange : Nat → CallState → Except Any CallState
  | 0, st => .ok st
  | messages + 1, st =>
    match st.streamMsg with
    | .error p => .error p
    | .ok st1 => exchange messages st1

/-- A handler body of a streaming call: it records that it ran, exchanges
`messages` messages on its stream and ends with `out`. -/
def streamHandlerEnding (messages : Nat) (out : Outcome) : Handler :=
  fun st =>
    match exchange messages (st.emit .handler) with
    | .error p => (st.emit .handler, .panicked p)
    | .ok st1 => (st1, out)

/-! ## Request metadata (`google.golang.org/grpc/metadata`) -/

/-- Library function `strings.ToLower` on the ASCII letters. -/
def toLower (s : String) : String :=
  String.mk (s.data.map Char.toLower)

/-- Library function `strings.HasSuffix`. -/
def hasSuffix (s suffix : String) : Bool :=
  suffix.data.isSuffixOf s.data

def base64Alphabet : List Char :=
  "ABCDEFGHIJKLMNOPQRSTUVWXYZabcdefghijklmnopqrstuvwxyz0123456789+/".data

def base64Char (n : Nat) : Char :=
  base64Alphabet.getD n '='

/-- Library function `base64.StdEncoding.EncodeToString` on a list of bytes. -/
def base64Encode : List Nat → List Char
  | [] => []
  | [a] => [base64Char (a / 4), base64Char (a % 4 * 16), '=', '=']
  | [a, b] =>
    [base64Char (a / 4), base64Char (a % 4 * 16 + b / 16), base64Char (b % 16 * 4), '=']
  | a :: b :: c :: rest =>
    [base64Char (a / 4), base64Char (a % 4 * 16 + b / 16), base64Char (b % 16 * 4 + c / 64),
     base64Char (c % 64)] ++ base64Encode rest

/-- The type `metadata.MD`: each key with its values, keys in order of first use. -/
abbrev MD := List (String × List String)

/-- The map read `md[k]`: the values under `k`, none when the key is absent. -/
def MD.values (md : MD) (k : String) : List String :=
  match md.find? (fun kv => kv.1 == k) with
  | some kv => kv.2
  | none => []

/-- The map write `md[k] = append(md[k], v)`. -/
def MD.add (md : MD) (k v : String) : MD :=
  if md.any (fun kv => kv.1 == k) then
    md.map (fun kv => if kv.1 == k then (kv.1, kv.2 ++ [v]) else kv)
  else md ++ [(k, [v])]

/-- Library function `MD.Get`: keys are looked up in lower case. -/
def MD.Get (md : MD) (k : String) : List String :=
  md.values (toLower k)

/-- Library function `MD.Set` of the metadata helper of go-grpc-middleware:
`md[strings.ToLower(key)] = []string{value}`. -/
def MD.Set (md : MD) (key value : String) : MD :=
  let k := toLower key
  if md.any (fun kv => kv.1 == k) then
    md.map (fun kv => if kv.1 == k then (kv.1, [value]) else kv)
  else md ++ [(k, [value])]

/-- Library function `hasNotPrintable` of gRPC: some byte of the text is outside
0x20..0x7E.  A character above 0x7F is encoded in bytes above 0x7F and a
character up to 0x7F is its own byte, so the test is made on characters. -/
def hasNotPrintable (msg : String) : Bool :=
  msg.data.any (fun c => c.toNat < 0x20 || c.toNat > 0x7E)

/-- Whether a character may occur in a header key: `0-9`, `a-z`, `.`, `-`, `_`. -/
def legalKeyChar (c : Char) : Bool :=
  ('a' ≤ c && c ≤ 'z') || ('0' ≤ c && c ≤ '9') || c == '.' || c == '-' || c == '_'

/-- Go's `%q` of a text without quotes, backslashes or control characters. -/
def quoted (s : String) : String :=
  "\"" ++ s ++ "\""

/-- Library function `ValidatePair` of gRPC (`internal/metadata`): the error text for
a header gRPC refuses, `none` for one it accepts. -/
def ValidatePair (key : String) (vals : List String) : Option String :=
  if key = "" then some "there is an empty key in the header"
  else if key.data.head? = some ':' then none
  else if !key.data.all legalKeyChar then
    some ("header key " ++ quoted key ++ " contains illegal characters not in [0-9a-z-_.]")
  else if hasSuffix key "-bin" then none
  else if vals.any hasNotPrintable then
    some ("header key " ++ quoted key ++ " contains value with non-printable ASCII characters")
  else none

/-- Library function `Validate` of gRPC (`internal/metadata`): the first header that
is refused decides. -/
def Validate (md : MD) : Option String :=
  md.findSome? (fun kv => ValidatePair kv.1 kv.2)

/-! ## Retry interceptor (`interceptors/retry`) -/

namespace retry

/-- The struct `retry.options`.  The backoff function is kept by the two
arguments of `BackoffLinearWithJitter`, the jitter fraction in percent. -/
structure options where
  max : Nat
  perCallTimeout : Nat
  includeHeader : Bool
  codes : List Code
  backoffWaitBetween : Nat
  backoffJitterPercent : Nat
deriving DecidableEq, Repr

abbrev CallOption := options → options

/-- The library's `DefaultRetriableCodes`. -/
def DefaultRetriableCodes : List Code := [.ResourceExhausted, .Unavailable]

/-- The library's `defaultOptions`: retries disabled, linear backoff of
50 ms with 10 % jitter. -/
def defaultOptions : options :=
  { max := 0, perCallTimeout := 0, includeHeader := true, codes := DefaultRetriableCodes,
    backoffWaitBetween := 50, backoffJitterPercent := 10 }

/-- The option `WithBackoff(BackoffLinearWithJitter(waitBetween, jitterFraction))`. -/
def WithBackoffLinearWithJitter (waitBetween jitterPercent : Nat) : CallOption :=
  fun o => { o with backoffWaitBetween := waitBetween, backoffJitterPercent := jitterPercent }

def WithMax (maxRetries : Nat) : CallOption :=
  fun o => { o with max := maxRetries }

def WithCodes (retryCodes : List Code) : CallOption :=
  fun o => { o with codes := retryCodes }

def WithPerRetryTimeout (timeout : Nat) : CallOption :=
  fun o => { o with perCallTimeout := timeout }

/-- Library function `reuseOrNewWithCallOptions`: a copy of `opt` with the call
options run over it, in order. -/
def reuseOrNewWithCallOptions (opt : options) (callOptions : List CallOption) : options :=
  callOptions.foldl (fun o f => f o) opt

/-- What happens around one attempt, as far as the interceptor can see it:
the wait the backoff function draws, whether the caller's context ends
during that wait, what comes back when the request of the attempt goes out
(`none` is success), and whether the caller's context has an error when the
attempt is back. -/
structure AttemptEnv where
  backoffWait : Nat
  parentDoneInBackoff : Option ContextErr
  result : Option GoError
  parentErrAfter : Bool

/-- Library function `isContextError`. -/
def isContextError (e : GoError) : Bool :=
  e.code = .DeadlineExceeded || e.code = .Canceled

/-- Library function `isRetriable`. -/
def isRetriable (e : GoError) (callOpts : options) : Bool :=
  if isContextError e then false else callOpts.codes.contains e.code

/-- Library function `contextErrToGrpcErr`. -/
def contextErrToGrpcErr : ContextErr → GoError
  | .DeadlineExceeded => .status .DeadlineExceeded "context deadline exceeded"
  | .Canceled => .status .Canceled "context canceled"

/-- Library function `waitRetryBackoff`: no wait before the first attempt;
before a later one the wait is raced against the caller's context. -/
def waitRetryBackoff (attempt : Nat) (a : AttemptEnv) : Option GoError :=
  let waitTime := if attempt > 0 then a.backoffWait else 0
  if waitTime > 0 then
    match a.parentDoneInBackoff with
    | some ce => some (contextErrToGrpcErr ce)
    | none => none
  else none

/-- The key `AttemptMetadataKey` of the header that numbers the retries. -/
def AttemptMetadataKey : String := "x-retry-attempt"

/-- Library function `perCallContext`, by the outgoing metadata of the context it
makes for attempt number `attempt`: from the second attempt on, and when the
options include the header, the attempt number is set under
`AttemptMetadataKey`. -/
def perCallContext (md : MD) (callOpts : options) (attempt : Nat) : MD :=
  if attempt > 0 && callOpts.includeHeader then
    md.Set AttemptMetadataKey (toString attempt)
  else md

end retry

/-- Library function `invoke` of gRPC, the invoker the interceptor calls, for one
attempt with outgoing metadata `md`: metadata that does not pass `Validate`
ends the attempt with an Internal error before anything is sent; otherwise
the request goes out with this metadata.  The result is the metadata of the
requests sent (none or one) and the error of the attempt. -/
def invoke (md : MD) (a : retry.AttemptEnv) : List MD × Option GoError :=
  match Validate md with
  | some text => ([], some (.status .Internal text))
  | none => ([md], a.result)

namespace retry

/-- How a unary call through the interceptor ends: the number of times the
invoker was called (attempts), the metadata of the requests that went out,
oldest first, and the error returned (`none` is nil). -/
structure Run where
  attempts : Nat
  sent : List MD
  err : Option GoError
deriving Repr

/-- The loop of `UnaryClientInterceptor`, from attempt number `attempt`, with
`fuel = max - attempt` iterations left; `md` is the outgoing metadata of the
caller's context and `sent` what went out so far. -/
def loop (callOpts : options) (md : MD) (env : Nat → AttemptEnv) :
    Nat → Nat → Option GoError → List MD → Run
  | 0, attempt, lastErr, sent => ⟨attempt, sent, lastErr⟩
  | fuel + 1, attempt, _, sent =>
    match waitRetryBackoff attempt (env attempt) with
    | some e => ⟨attempt, sent, some e⟩
    | none =>
      match invoke (perCallContext md callOpts attempt) (env attempt) with
      | (out, none) => ⟨attempt + 1, sent ++ out, none⟩
      | (out, some lastErr) =>
        if isContextError lastErr then
          if (env attempt).parentErrAfter then
            ⟨attempt + 1, sent ++ out, some lastErr⟩
          else if callOpts.perCallTimeout != 0 then
            loop callOpts md env fuel (attempt + 1) (some lastErr) (sent ++ out)
          else if !isRetriable lastErr callOpts then
            ⟨attempt + 1, sent ++ out, some lastErr⟩
          else
            loop callOpts md env fuel (attempt + 1) (some lastErr) (sent ++ out)
        else if !isRetriable lastErr callOpts then
          ⟨attempt + 1, sent ++ out, some lastErr⟩
        else
          loop callOpts md env fuel (attempt + 1) (some lastErr) (sent ++ out)

/-- Library function `UnaryClientInterceptor`, applied to one unary call whose
context carries the outgoing metadata `md`. -/
def UnaryClientInterceptor (callOpts : options) (md : MD) (env : Nat → AttemptEnv) : Run :=
  if callOpts.max = 0 then
    let out := invoke md (env 0)
    ⟨1, out.1, out.2⟩
  else loop callOpts md env callOpts.max 0 none []

end retry

/-! ## `InitializeGrpcClient` -/

/-- The struct `keepalive.ClientParameters`. -/
structure ClientParameters where
  Time : Nat
  Timeout : Nat
  PermitWithoutStream : Bool
deriving DecidableEq, Repr

/-- A client connection, by the dial target and dial options it was made
with.  `unaryInterceptor` and `streamInterceptor` are the options the two
retry interceptors were built with; unary calls, the calls the endpoints of
`NewGrpcEndpoint` make, are embedded (`ClientConn.Invoke`), streaming calls
of the client are not. -/
structure ClientConn where
  target : String
  insecureCredentials : Bool
  disableServiceConfig : Bool
  loadBalancingPolicy : String
  keepaliveParams : ClientParameters
  unaryInterceptor : retry.options
  streamInterceptor : retry.options
deriving DecidableEq, Repr

/-- The slice `retryOpts` of `InitializeGrpcClient`. -/
def retryOpts : List retry.CallOption :=
  [retry.WithBackoffLinearWithJitter (1 * Second) 10,
   retry.WithMax 3,
   retry.WithCodes [.Unavailable, .Aborted],
   retry.WithPerRetryTimeout (3 * Second)]

/-- The connection `grpc.NewClient` makes from the target and the slice
`dialOpts` of `InitializeGrpcClient`. -/
def dialed (svcHost : String) : ClientConn :=
  let scheme := "dns"
  { target := scheme ++ ":///" ++ svcHost
    insecureCredentials := true
    disableServiceConfig := true
    loadBalancingPolicy := "round_robin"
    keepaliveParams := { Time := 10 * Second, Timeout := Second, PermitWithoutStream := true }
    unaryInterceptor := retry.reuseOrNewWithCallOptions retry.defaultOptions retryOpts
    streamInterceptor := retry.reuseOrNewWithCallOptions retry.defaultOptions retryOpts }

/-- The function `InitializeGrpcClient`; `newClientErr` is the error
`grpc.NewClient` returns for the target (`none` is nil). -/
def InitializeGrpcClient (svcHost : String) (newClientErr : Option GoError) :
    Except GoError ClientConn :=
  match newClientErr with
  | some e => .error e
  | none => .ok (dialed svcHost)

/-- Library function `ClientConn.Invoke` for one unary call whose context carries
the outgoing metadata `md`: the call goes through the connection's unary
interceptor. -/
def ClientConn.Invoke (conn : ClientConn) (md : MD) (env : Nat → retry.AttemptEnv) :
    retry.Run :=
  retry.UnaryClientInterceptor conn.unaryInterceptor md env

/-- How attempt number `i` of a unary call on the connection ends: the error
the invoker returns for it (`none` is success). -/
def ClientConn.attemptResult (conn : ClientConn) (md : MD) (env : Nat → retry.AttemptEnv)
    (i : Nat) : Option GoError :=
  (invoke (retry.perCallContext md conn.unaryInterceptor i) (env i)).2

/-! ## Transport client (go-kit `transport/grpc`) -/

/-- Library function `EncodeKeyValue` of go-kit: the key in lower case, and
the value in base64 when the key ends in `-bin`. -/
def EncodeKeyValue (key val : String) : String × String :=
  let key := toLower key
  if hasSuffix key "-bin" then
    (key, String.mk (base64Encode (val.toUTF8.toList.map (fun b => b.toNat))))
  else (key, val)

/-- A `ClientRequestFunc` of go-kit; the one this repository uses. -/
inductive ClientRequestFunc where
  | SetRequestHeader (key val : String)
deriving DecidableEq, Repr

/-- What a request function does to the metadata of a request. -/
def ClientRequestFunc.run : ClientRequestFunc → MD → MD
  | .SetRequestHeader key val, md =>
    let kv := EncodeKeyValue key val
    md.add kv.1 kv.2

/-- The struct `grpctransport.Client`; encoder and decoder are the two
functions of this repository. -/
structure TransportClient where
  method : String
  before : List ClientRequestFunc
deriving DecidableEq, Repr

abbrev ClientOption := TransportClient → TransportClient

def ClientBefore (before : List ClientRequestFunc) : ClientOption :=
  fun c => { c with before := c.before ++ before }

/-- Library function `grpctransport.NewClient`. -/
def NewClient (serviceName method : String) (options : List ClientOption) : TransportClient :=
  options.foldl (fun c o => o c) { method := "/" ++ serviceName ++ "/" ++ method, before := [] }

/-- The metadata the `before` functions of the client build for a request,
from an empty `metadata.MD`. -/
def TransportClient.metadata (c : TransportClient) : MD :=
  c.before.foldl (fun md f => f.run md) []

/-- One request as it leaves the client: the full method, the outgoing
metadata, the encoded request value. -/
structure Sent (α : Type) where
  method : String
  md : MD
  payload : α

/-- Library function `Client.Endpoint` of go-kit for one call: encode, build
the metadata with the `before` functions, invoke on the connection with that
metadata as the outgoing metadata of the context, decode.  Every request the
connection sends goes to the client's method with the encoded request.
`reply` is the message a successful attempt receives. -/
def TransportClient.Endpoint {α β : Type} (c : TransportClient) (conn : ClientConn)
    (env : Nat → retry.AttemptEnv) (reply : β) (request : α) :
    List (Sent α) × Except GoError β :=
  let req := encodeGRPCRequest () request
  match req.err with
  | some e => ([], .error e)
  | none =>
    let md := c.metadata
    let run := conn.Invoke md env
    let sent := run.sent.map (fun m => { method := c.method, md := m, payload := req.value })
    match run.err with
    | some e => (sent, .error e)
    | none =>
      let response := decodeGRPCResponse () reply
      match response.err with
      | some e => (sent, .error e)
      | none => (sent, .ok response.value)

/-! ## Circuit breaker (`github.com/sony/gobreaker`) -/

namespace gobreaker

inductive State where
  | StateClosed | StateHalfOpen | StateOpen
deriving DecidableEq, Repr

structure Counts where
  Requests : Nat
  TotalSuccesses : Nat
  TotalFailures : Nat
  ConsecutiveSuccesses : Nat
  ConsecutiveFailures : Nat
deriving DecidableEq, Repr

def Counts.onRequest (c : Counts) : Counts :=
  { c with Requests := c.Requests + 1 }

def Counts.onSuccess (c : Counts) : Counts :=
  { c with TotalSuccesses := c.TotalSuccesses + 1,
           ConsecutiveSuccesses := c.ConsecutiveSuccesses + 1,
           ConsecutiveFailures := 0 }

def Counts.onFailure (c : Counts) : Counts :=
  { c with TotalFailures := c.TotalFailures + 1,
           ConsecutiveFailures := c.ConsecutiveFailures + 1,
           ConsecutiveSuccesses := 0 }

def Counts.clear : Counts :=
  { Requests := 0, TotalSuccesses := 0, TotalFailures := 0, ConsecutiveSuccesses := 0,
    ConsecutiveFailures := 0 }

/-- The struct `gobreaker.Settings`, by the fields that hold data.  The
function fields `ReadyToTrip`, `OnStateChange` and `IsSuccessful` are nil in
this repository, so the breaker uses the library defaults. -/
structure Settings where
  Name : String
  MaxRequests : Nat
  Interval : Nat
  Timeout : Nat
deriving DecidableEq, Repr

/-- The struct `gobreaker.CircuitBreaker`; `expiry = none` is the zero time. -/
structure CircuitBreaker where
  name : String
  maxRequests : Nat
  interval : Nat
  timeout : Nat
  state : State
  generation : Nat
  counts : Counts
  expiry : Option Nat
deriving DecidableEq, Repr

/-- Library function `defaultReadyToTrip`. -/
def defaultReadyToTrip (counts : Counts) : Bool :=
  counts.ConsecutiveFailures > 5

/-- Library function `defaultIsSuccessful`. -/
def defaultIsSuccessful (err : Option GoError) : Bool :=
  err.isNone

def CircuitBreaker.toNewGeneration (cb : CircuitBreaker) (now : Nat) : CircuitBreaker :=
  let cb := { cb with generation := cb.generation + 1, counts := Counts.clear }
  match cb.state with
  | .StateClosed =>
    if cb.interval = 0 then { cb with expiry := none }
    else { cb with expiry := some (now + cb.interval) }
  | .StateOpen => { cb with expiry := some (now + cb.timeout) }
  | .StateHalfOpen => { cb with expiry := none }

def CircuitBreaker.setState (cb : CircuitBreaker) (state : State) (now : Nat) : CircuitBreaker :=
  if cb.state = state then cb
  else ({ cb with state := state }).toNewGeneration now

/-- Library function `expiry.Before(now)`; the zero time is before every instant at
which a call runs. -/
def expiryBefore (expiry : Option Nat) (now : Nat) : Bool :=
  match expiry with
  | none => true
  | some e => e < now

/-- Library function `currentState`: the breaker after the time-driven
transitions; state and generation are read from the result. -/
def CircuitBreaker.currentState (cb : CircuitBreaker) (now : Nat) : CircuitBreaker :=
  match cb.state with
  | .StateClosed =>
    if cb.expiry.isSome && expiryBefore cb.expiry now then cb.toNewGeneration now else cb
  | .StateOpen =>
    if expiryBefore cb.expiry now then cb.setState .StateHalfOpen now else cb
  | .StateHalfOpen => cb

def NewCircuitBreaker (st : Settings) (now : Nat) : CircuitBreaker :=
  let cb : CircuitBreaker :=
    { name := st.Name
      maxRequests := if st.MaxRequests = 0 then 1 else st.MaxRequests
      interval := st.Interval
      timeout := if st.Timeout = 0 then 60 * Second else st.Timeout
      state := .StateClosed
      generation := 0
      counts := Counts.clear
      expiry := none }
  cb.toNewGeneration now

def CircuitBreaker.beforeRequest (cb : CircuitBreaker) (now : Nat) :
    CircuitBreaker × Except GoError Nat :=
  let cb := cb.currentState now
  if cb.state = .StateOpen then (cb, .error .errOpenState)
  else if cb.state = .StateHalfOpen && cb.counts.Requests ≥ cb.maxRequests then
    (cb, .error .errTooManyRequests)
  else ({ cb with counts := cb.counts.onRequest }, .ok cb.generation)

def CircuitBreaker.onSuccess (cb : CircuitBreaker) (state : State) (now : Nat) : CircuitBreaker :=
  match state with
  | .StateClosed => { cb with counts := cb.counts.onSuccess }
  | .StateHalfOpen =>
    let cb := { cb with counts := cb.counts.onSuccess }
    if cb.counts.ConsecutiveSuccesses ≥ cb.maxRequests then cb.setState .StateClosed now else cb
  | .StateOpen => cb

def CircuitBreaker.onFailure (cb : CircuitBreaker) (state : State) (now : Nat) : CircuitBreaker :=
  match state with
  | .StateClosed =>
    let cb := { cb with counts := cb.counts.onFailure }
    if defaultReadyToTrip cb.counts then cb.setState .StateOpen now else cb
  | .StateHalfOpen => cb.setState .StateOpen now
  | .StateOpen => cb

def CircuitBreaker.afterRequest (cb : CircuitBreaker) (before : Nat) (success : Bool)
    (now : Nat) : CircuitBreaker :=
  let cb := cb.currentState now
  if cb.generation ≠ before then cb
  else if success then cb.onSuccess cb.state now
  else cb.onFailure cb.state now

end gobreaker

/-! ## `NewGrpcEndpoint` -/

def ServiceIdHeader : String := "Service-Id"

/-- The circuit breakers allocated so far, by address; `next` is the first
address not yet in use. -/
structure World where
  breakers : Nat → gobreaker.CircuitBreaker
  next : Nat

def World.set (w : World) (addr : Nat) (cb : gobreaker.CircuitBreaker) : World :=
  { w with breakers := fun a => if a = addr then cb else w.breakers a }

/-- The endpoint `NewGrpcEndpoint` returns: the transport client on its
connection, the address of the breaker guarding it, and the two arguments of
`lb.Retry` around the one-entry endpointer. -/
structure Endpoint where
  conn : ClientConn
  client : TransportClient
  breaker : Nat
  retryMax : Nat
  retryTimeout : Nat
deriving DecidableEq, Repr

/-- What happens around one try of the balancer: the clock readings of the
breaker before and after the request, the transport attempts, the message a
successful attempt receives, and whether the context of `lb.Retry` (the
caller's, cut at the retry timeout) ends before the try reports back. -/
structure CallEnv (β : Type) where
  tBefore : Nat
  tAfter : Nat
  attempts : Nat → retry.AttemptEnv
  reply : β
  outerDone : Option ContextErr

/-- How a call through the endpoint ends: the requests sent, oldest first,
and the response or error handed to the caller. -/
structure CallResult (α β : Type) where
  sent : List (Sent α)
  response : Except GoError β

/-- The function `NewGrpcEndpoint`, in a world at instant `now`.  A new
breaker is allocated at every call. -/
def NewGrpcEndpoint {β : Type} (w : World) (now : Nat) (conn : ClientConn)
    (serviceID serviceName method : String) (_grpcReply : β) : World × Endpoint :=
  let client := NewClient serviceName method
    [ClientBefore [.SetRequestHeader ServiceIdHeader serviceID]]
  let cb := gobreaker.NewCircuitBreaker
    { Name := serviceName ++ "." ++ method, MaxRequests := 0, Interval := 0,
      Timeout := 60 * Second } now
  ({ breakers := fun a => if a = w.next then cb else w.breakers a, next := w.next + 1 },
   { conn := conn, client := client, breaker := w.next, retryMax := 1,
     retryTimeout := 15 * Second })

/-- Library function `circuitbreaker.Gobreaker(cb)(next)` of go-kit with `Execute` of
gobreaker: one call of the transport endpoint under the endpoint's breaker. -/
def Endpoint.guarded {α β : Type} (ep : Endpoint) (w : World) (env : CallEnv β)
    (request : α) : World × List (Sent α) × Except GoError β :=
  let r := (w.breakers ep.breaker).beforeRequest env.tBefore
  match r.2 with
  | .error e => (w.set ep.breaker r.1, [], .error e)
  | .ok generation =>
    let out := ep.client.Endpoint ep.conn env.attempts env.reply request
    let success := match out.2 with
      | .ok _ => gobreaker.defaultIsSuccessful none
      | .error e => gobreaker.defaultIsSuccessful (some e)
    (w.set ep.breaker (r.1.afterRequest generation success env.tAfter), out.1, out.2)

/-- Library function `lb.Retry(max, timeout, b)` of go-kit over the one-entry
endpointer: try number `i` runs under `envs i`; `fuel` is the number of
tries `maxRetries` still allows after this one (`max - i`).  When the
context ends first the try still runs to its end in its goroutine, so its
effects are kept. -/
def Endpoint.retryLoop {α β : Type} (ep : Endpoint) (envs : Nat → CallEnv β) (request : α) :
    Nat → Nat → World → List GoError → List (Sent α) → World × CallResult α β
  | fuel, i, w, rawErrors, sent =>
    let r := ep.guarded w (envs i) request
    match (envs i).outerDone with
    | some ce => (r.1, ⟨sent ++ r.2.1, .error (.context ce)⟩)
    | none =>
      match r.2.2 with
      | .ok response => (r.1, ⟨sent ++ r.2.1, .ok response⟩)
      | .error err =>
        match fuel with
        | 0 => (r.1, ⟨sent ++ r.2.1, .error (.retryError (rawErrors ++ [err]) err)⟩)
        | fuel + 1 =>
          ep.retryLoop envs request fuel (i + 1) r.1 (rawErrors ++ [err]) (sent ++ r.2.1)

/-- One call of the endpoint returned by `NewGrpcEndpoint`. -/
def Endpoint.call {α β : Type} (ep : Endpoint) (w : World) (envs : Nat → CallEnv β)
    (request : α) : World × CallResult α β :=
  ep.retryLoop envs request (ep.retryMax - 1) 1 w [] []

/-- Whether the breaker lets a request through at instant `now`. -/
def gobreaker.CircuitBreaker.admits (cb : gobreaker.CircuitBreaker) (now : Nat) : Bool :=
  match (cb.beforeRequest now).2 with
  | .ok _ => true
  | .error _ => false

/-! ## Example runs -/

/-- The state before a call on a new server: nothing counted, nothing
logged.  The context carries a span with the given flags; the start record
is written after 21 microseconds, the finish record after 12 milliseconds. -/
def callWithFlags (traceFlags : Nat) : CallState :=
  { recovery := { panicsTotal := 0, logger := ⟨[]⟩ }
    trace := []
    call :=
      { ctx := { span := some { traceID := "4bf92f3577b34da6a3ce929d0e0e4736",
                                traceFlags := traceFlags } }
        fields := [.str "protocol", .str "grpc", .str "grpc.component", .str "server",
                   .str "grpc.service", .str "chat.Room", .str "grpc.method", .str "Get"]
        startElapsed := fun f => match f with
          | .DurationToTimeMillisFields => .float32 "0.021"
          | .DurationToDurationField => .stringer "21µs"
        finishElapsed := fun f => match f with
          | .DurationToTimeMillisFields => .float32 "12"
          | .DurationToDurationField => .stringer "12ms" }
    streamReporter := none
    startCallLogged := false }

/-- A world in which no endpoint has been built yet. -/
def emptyWorld : World :=
  { breakers := fun _ => gobreaker.NewCircuitBreaker
      { Name := "", MaxRequests := 0, Interval := 0, Timeout := 0 } 0
    next := 0 }

/-- Attempts that all end the same way, with the caller's context live. -/
def attemptsAll (result : Option GoError) : Nat → retry.AttemptEnv :=
  fun _ => { backoffWait := 1000, parentDoneInBackoff := none, result := result,
             parentErrAfter := false }

/-- A first attempt that ends with `first` while the caller's context is
live, followed by attempts that succeed. -/
def attemptsFirst (first : GoError) : Nat → retry.AttemptEnv :=
  fun i => { backoffWait := 1000, parentDoneInBackoff := none,
             result := if i = 0 then some first else none, parentErrAfter := false }

/-- A first attempt that fails with `first`, after which the caller cancels
its context while the interceptor waits before the second attempt. -/
def attemptsCanceledInBackoff (first : GoError) : Nat → retry.AttemptEnv :=
  fun i => { backoffWait := 1000,
             parentDoneInBackoff := if i = 0 then none else some .Canceled,
             result := some first, parentErrAfter := false }

/-- Tries of the balancer that start at instant `t`, take five seconds, and
run the given attempts. -/
def triesAt (t : Nat) (attempts : Nat → retry.AttemptEnv) : Nat → CallEnv String :=
  fun _ => { tBefore := t, tAfter := t + 5 * Second, attempts := attempts, reply := "pong",
             outerDone := none }

/-- The service is down: every attempt ends with Unavailable. -/
def down : GoError := .status .Unavailable "connection refused"

/-- The world after a first endpoint for `chat.Room/Get` has been built. -/
def worldOne : World :=
  (NewGrpcEndpoint emptyWorld 0 (dialed "room:5000") "room-service" "chat.Room" "Get" "").1

def endpointOne : Endpoint :=
  (NewGrpcEndpoint emptyWorld 0 (dialed "room:5000") "room-service" "chat.Room" "Get" "").2

/-- The world after a second endpoint for the same `chat.Room/Get`. -/
def worldTwo : World :=
  (NewGrpcEndpoint worldOne 0 (dialed "room:5000") "room-service" "chat.Room" "Get" "").1

def endpointTwo : Endpoint :=
  (NewGrpcEndpoint worldOne 0 (dialed "room:5000") "room-service" "chat.Room" "Get" "").2

/-- The world after `n` calls through `ep`, one every ten seconds from
instant 0, while the service is down. -/
def afterFailures (ep : Endpoint) : Nat → World → World
  | 0, w => w
  | n + 1, w =>
    (ep.call (afterFailures ep n w) (triesAt (10 * n * Second) (attemptsAll (some down))) "ping").1

/-! # Theorems -/

/-! ## Helper lemmas: retry interceptor -/

/-- A connection `InitializeGrpcClient` returns is the one dialled with its options. -/
theorem conn_eq_dialed {svcHost : String} {conn : ClientConn}
    (h : InitializeGrpcClient svcHost none = .ok conn) : conn = dialed svcHost := by
  simp [InitializeGrpcClient] at h
  exact h.symm

/-- The retry options the unary interceptor of a dialled connection ends up with. -/
theorem dialed_unaryInterceptor (svcHost : String) :
    (dialed svcHost).unaryInterceptor =
      { max := 3, perCallTimeout := 3000, includeHeader := true,
        codes := [.Unavailable, .Aborted], backoffWaitBetween := 1000,
        backoffJitterPercent := 10 } := by
  rfl

/-- One call of the invoker sends at most one request. -/
theorem invoke_sent_le (md : MD) (a : retry.AttemptEnv) :
    (invoke md a).1 = [] ∨ (invoke md a).1 = [md] := by
  unfold invoke
  cases Validate md <;> simp

/-- One call of the invoker sends at most one request (by length). -/
theorem invoke_sent_length_le (md : MD) (a : retry.AttemptEnv) :
    (invoke md a).1.length ≤ 1 := by
  rcases invoke_sent_le md a with h | h <;> simp [h]

/-- An attempt that ends with another code than Internal was sent, and ends with what came back. -/
theorem invoke_of_not_internal (md : MD) (a : retry.AttemptEnv) (e : GoError)
    (h : (invoke md a).2 = some e) (hc : e.code ≠ .Internal) :
    invoke md a = ([md], some e) ∧ Validate md = none := by
  unfold invoke at h ⊢
  cases hv : Validate md with
  | some text =>
    rw [hv] at h
    simp at h
    subst h
    exact absurd rfl hc
  | none =>
    rw [hv] at h
    simp at h
    simp [h]

/-- An attempt that succeeds was sent. -/
theorem invoke_ok (md : MD) (a : retry.AttemptEnv)
    (h : (invoke md a).2 = none) :
    invoke md a = ([md], none) := by
  unfold invoke at h ⊢
  cases hv : Validate md with
  | some text => rw [hv] at h; simp at h
  | none => rw [hv] at h; simp at h; simp [h]

/-- The retry loop calls the invoker at most once per iteration it has left,
never reports fewer attempts than were made before it, sends at most one
request per iteration, and sends only the metadata of its attempts. -/
theorem retry_loop_bounds (o : retry.options) (md : MD) (env : Nat → retry.AttemptEnv) :
    ∀ (fuel attempt : Nat) (last : Option GoError) (sent : List MD),
      (retry.loop o md env fuel attempt last sent).attempts ≤ attempt + fuel ∧
      attempt ≤ (retry.loop o md env fuel attempt last sent).attempts ∧
      (retry.loop o md env fuel attempt last sent).sent.length ≤ sent.length + fuel ∧
      (∀ m ∈ (retry.loop o md env fuel attempt last sent).sent,
        m ∈ sent ∨ ∃ i, m = retry.perCallContext md o i) := by
  intro fuel
  induction fuel with
  | zero =>
    intro attempt last sent
    simp only [retry.loop]
    exact ⟨by omega, by omega, by omega, fun m hm => Or.inl hm⟩
  | succ n ih =>
    intro attempt last sent
    have hs := invoke_sent_le (retry.perCallContext md o attempt) (env attempt)
    unfold retry.loop
    split
    · refine ⟨?_, ?_, ?_, ?_⟩
      · show attempt ≤ attempt + (n + 1); omega
      · show attempt ≤ attempt; omega
      · show sent.length ≤ sent.length + (n + 1); omega
      · intro m hm; exact Or.inl hm
    · split
      · rename_i out hinv
        rw [hinv] at hs
        refine ⟨?_, ?_, ?_, ?_⟩
        · show attempt + 1 ≤ attempt + (n + 1); omega
        · show attempt ≤ attempt + 1; omega
        · show (sent ++ out).length ≤ sent.length + (n + 1)
          rcases hs with h | h <;> simp at h <;> subst h <;> simp
        · intro m hm
          have hm2 : m ∈ sent ++ out := hm
          rcases hs with h | h <;> simp at h <;> subst h <;> simp at hm2
          · exact Or.inl hm2
          · rcases hm2 with h1 | h1
            · exact Or.inl h1
            · exact Or.inr ⟨attempt, h1⟩
      · rename_i out lastErr hinv
        rw [hinv] at hs
        have hlen : (sent ++ out).length ≤ sent.length + 1 := by
          rcases hs with h | h <;> simp at h <;> subst h <;> simp
        have hmem : ∀ m ∈ sent ++ out, m ∈ sent ∨ ∃ i, m = retry.perCallContext md o i := by
          intro m hm
          rcases hs with h | h <;> simp at h <;> subst h <;> simp at hm
          · exact Or.inl hm
          · rcases hm with h1 | h1
            · exact Or.inl h1
            · exact Or.inr ⟨attempt, h1⟩
        have hstop : (attempt + 1 ≤ attempt + (n + 1)) ∧ attempt ≤ attempt + 1 ∧
            (sent ++ out).length ≤ sent.length + (n + 1) ∧
            (∀ m ∈ sent ++ out, m ∈ sent ∨ ∃ i, m = retry.perCallContext md o i) :=
          ⟨by omega, by omega, by omega, hmem⟩
        have hgo := ih (attempt + 1) (some lastErr) (sent ++ out)
        have hgo2 : (retry.loop o md env n (attempt + 1) (some lastErr) (sent ++ out)).attempts
              ≤ attempt + (n + 1) ∧
            attempt ≤ (retry.loop o md env n (attempt + 1) (some lastErr) (sent ++ out)).attempts ∧
            (retry.loop o md env n (attempt + 1) (some lastErr) (sent ++ out)).sent.length
              ≤ sent.length + (n + 1) ∧
            (∀ m ∈ (retry.loop o md env n (attempt + 1) (some lastErr) (sent ++ out)).sent,
              m ∈ sent ∨ ∃ i, m = retry.perCallContext md o i) := by
          refine ⟨by omega, by omega, by omega, ?_⟩
          intro m hm
          rcases hgo.2.2.2 m hm with h | h
          · exact hmem m h
          · exact Or.inr h
        split_ifs <;> first | exact hstop | exact hgo2

/-- The first attempt is made with the metadata of the caller's context. -/
theorem perCallContext_zero (md : MD) (o : retry.options) :
    retry.perCallContext md o 0 = md := by
  simp [retry.perCallContext]

/-- No call on a dialled connection makes more than three attempts or sends
more than three requests. -/
theorem retry_attempts_le_three (svcHost : String) (md : MD) (env : Nat → retry.AttemptEnv) :
    ((dialed svcHost).Invoke md env).attempts ≤ 3 ∧
    ((dialed svcHost).Invoke md env).sent.length ≤ 3 := by
  have h := retry_loop_bounds (dialed svcHost).unaryInterceptor md env 3 0 none []
  simp only [ClientConn.Invoke, retry.UnaryClientInterceptor, dialed_unaryInterceptor] at h ⊢
  rw [if_neg (by decide)]
  exact ⟨by simpa using h.1, by simpa using h.2.2.1⟩

/-- Every request a unary call on a connection sends carries the metadata the
interceptor makes for one of its attempts. -/
theorem retry_sent_mem (conn : ClientConn) (md : MD) (env : Nat → retry.AttemptEnv) :
    ∀ m ∈ (conn.Invoke md env).sent,
      ∃ i, m = retry.perCallContext md conn.unaryInterceptor i := by
  intro m hm
  simp only [ClientConn.Invoke, retry.UnaryClientInterceptor] at hm
  split_ifs at hm
  · rcases invoke_sent_le md (env 0) with h | h
    · rw [h] at hm; simp at hm
    · rw [h] at hm
      simp at hm
      exact ⟨0, by rw [perCallContext_zero]; exact hm⟩
  · rcases (retry_loop_bounds conn.unaryInterceptor md env _ 0 none []).2.2.2 m hm with h1 | h1
    · simp at h1
    · exact h1

/-- What one call of the invoker sends. -/
theorem invoke_sent (md : MD) (a : retry.AttemptEnv) :
    (invoke md a).1 = if Validate md = none then [md] else [] := by
  unfold invoke
  cases Validate md <;> simp

/-- Unavailable and Aborted are retriable for a dialled connection and are not context codes. -/
theorem retriable_of_code (svcHost : String) (e : GoError)
    (h : e.code = .Unavailable ∨ e.code = .Aborted) :
    e.code ≠ .Internal ∧ retry.isContextError e = false ∧
    retry.isRetriable e (dialed svcHost).unaryInterceptor = true := by
  rcases h with h | h <;>
    simp [retry.isRetriable, retry.isContextError, dialed_unaryInterceptor, h]

/-- When every remaining attempt fails with a retriable error and no wait is
cut short, the loop uses all its iterations, sends a request at each, and
returns the last error. -/
theorem retry_loop_exhaust (o : retry.options) (md : MD) (env : Nat → retry.AttemptEnv)
    (errs : Nat → GoError) :
    ∀ (fuel attempt : Nat) (last : Option GoError) (sent : List MD),
      (∀ i, attempt ≤ i → i < attempt + (fuel + 1) →
        (invoke (retry.perCallContext md o i) (env i)).2 = some (errs i) ∧
        (errs i).code ≠ .Internal ∧ retry.isContextError (errs i) = false ∧
        retry.isRetriable (errs i) o = true ∧ (env i).parentDoneInBackoff = none) →
      (retry.loop o md env (fuel + 1) attempt last sent).attempts = attempt + fuel + 1 ∧
      (retry.loop o md env (fuel + 1) attempt last sent).err = some (errs (attempt + fuel)) ∧
      (retry.loop o md env (fuel + 1) attempt last sent).sent.length
        = sent.length + fuel + 1 := by
  intro fuel
  induction fuel with
  | zero =>
    intro attempt last sent h
    obtain ⟨hr, hn, hc, hi, hb⟩ := h attempt (le_refl _) (by omega)
    have hinv := (invoke_of_not_internal _ _ _ hr hn).1
    rw [retry.loop]
    simp only [retry.waitRetryBackoff, hb, hinv, hc, hi]
    simp [retry.loop]
  | succ n ih =>
    intro attempt last sent h
    obtain ⟨hr, hn, hc, hi, hb⟩ := h attempt (le_refl _) (by omega)
    have hinv := (invoke_of_not_internal _ _ _ hr hn).1
    have hrest := ih (attempt + 1) (some (errs attempt))
      (sent ++ [retry.perCallContext md o attempt])
      (fun i h1 h2 => h i (by omega) (by omega))
    rw [retry.loop]
    simp only [retry.waitRetryBackoff, hb, hinv, hc, hi]
    simp only [ite_self, Bool.false_eq_true, if_false, Bool.not_true]
    refine ⟨?_, ?_, ?_⟩
    · rw [hrest.1]; omega
    · rw [hrest.2.1]; congr 2; omega
    · rw [hrest.2.2]; simp; omega

/-- The wait before an attempt ends normally when the caller's context stays live. -/
theorem wait_none_of_live (attempt : Nat) (a : retry.AttemptEnv)
    (h : a.parentDoneInBackoff = none) : retry.waitRetryBackoff attempt a = none := by
  simp [retry.waitRetryBackoff, h]

/-- A first attempt that succeeds, or fails with an error the interceptor does
not retry, is the only attempt. -/
theorem invoke_first_not_retried (svcHost : String) (md : MD) (env : Nat → retry.AttemptEnv)
    (hcode : ∀ e, (dialed svcHost).attemptResult md env 0 = some e →
      e.code ≠ .Unavailable ∧ e.code ≠ .Aborted ∧
      (retry.isContextError e = true → (env 0).parentErrAfter = true)) :
    (dialed svcHost).Invoke md env
      = ⟨1, (invoke md (env 0)).1, (dialed svcHost).attemptResult md env 0⟩ := by
  simp only [ClientConn.attemptResult, perCallContext_zero] at hcode ⊢
  simp only [ClientConn.Invoke, retry.UnaryClientInterceptor, dialed_unaryInterceptor]
  rw [if_neg (by decide)]
  rw [retry.loop]
  have hw : retry.waitRetryBackoff 0 (env 0) = none := by simp [retry.waitRetryBackoff]
  simp only [hw, perCallContext_zero]
  rcases hinv : invoke md (env 0) with ⟨out, res⟩
  cases res with
  | none => simp
  | some e =>
    rw [hinv] at hcode
    obtain ⟨h1, h2, h3⟩ := hcode e rfl
    cases hc : retry.isContextError e with
    | true => simp [hc, h3 hc]
    | false => simp [retry.isRetriable, hc, h1, h2]

/-- A first attempt that ends with a context code while the caller's context
is live is followed by a second attempt. -/
theorem invoke_context_error_retried (svcHost : String) (md : MD)
    (env : Nat → retry.AttemptEnv) (e : GoError)
    (hr : (dialed svcHost).attemptResult md env 0 = some e)
    (hc : retry.isContextError e = true)
    (hp : (env 0).parentErrAfter = false) (hb : (env 1).parentDoneInBackoff = none) :
    2 ≤ ((dialed svcHost).Invoke md env).attempts := by
  simp only [ClientConn.attemptResult, perCallContext_zero] at hr
  simp only [ClientConn.Invoke, retry.UnaryClientInterceptor, dialed_unaryInterceptor]
  rw [if_neg (by decide)]
  rw [retry.loop]
  have hw : retry.waitRetryBackoff 0 (env 0) = none := by simp [retry.waitRetryBackoff]
  simp only [hw, perCallContext_zero]
  rcases hinv : invoke md (env 0) with ⟨out, res⟩
  rw [hinv] at hr
  simp only at hr
  subst hr
  simp only [hc, hp]
  simp only [if_true, Bool.false_eq_true, if_false]
  rw [if_pos (by decide)]
  have h2 := (retry_loop_bounds
    { max := 3, perCallTimeout := 3000, includeHeader := true,
      codes := [.Unavailable, .Aborted], backoffWaitBetween := 1000,
      backoffJitterPercent := 10 } md env 2 (0 + 1) (some e) ([] ++ out)).2.1
  have hb2 := wait_none_of_live 1 (env 1) hb
  rw [retry.loop]
  simp only [Nat.zero_add] at h2 ⊢
  simp only [hb2]
  have h3 := fun (l : Option GoError) (s : List MD) => (retry_loop_bounds
    { max := 3, perCallTimeout := 3000, includeHeader := true,
      codes := [.Unavailable, .Aborted], backoffWaitBetween := 1000,
      backoffJitterPercent := 10 } md env 1 2 l s).2.1
  split
  · show 2 ≤ 2
    omega
  · split_ifs <;> first
      | (show 2 ≤ 2; omega)
      | exact h3 _ _

/-! ## Helper lemmas: transport client and guarded endpoint -/

/-- The transport endpoint sends, for every request the connection sends, a
request to its method with the request value, and passes the result of the
connection through. -/
theorem transport_endpoint_eq {α β : Type} (c : TransportClient) (conn : ClientConn)
    (env : Nat → retry.AttemptEnv) (reply : β) (request : α) :
    c.Endpoint conn env reply request =
      ((conn.Invoke c.metadata env).sent.map
          (fun m => { method := c.method, md := m, payload := request }),
        match (conn.Invoke c.metadata env).err with
        | some e => .error e
        | none => .ok reply) := by
  unfold TransportClient.Endpoint
  simp only [encodeGRPCRequest, decodeGRPCResponse]
  cases (conn.Invoke c.metadata env).err <;> rfl

/-- The metadata the `before` function of `NewGrpcEndpoint` builds. -/
theorem service_id_metadata (serviceName method serviceID : String) :
    TransportClient.metadata ⟨"/" ++ serviceName ++ "/" ++ method,
      [.SetRequestHeader ServiceIdHeader serviceID]⟩ = [("service-id", [serviceID])] := by
  have h1 : toLower ServiceIdHeader = "service-id" := by decide
  have h2 : hasSuffix "service-id" "-bin" = false := by decide
  simp [TransportClient.metadata, ClientRequestFunc.run, EncodeKeyValue, h1, h2, MD.add]

/-- The metadata of every attempt of a call with the metadata of
`NewGrpcEndpoint` has the one value `serviceID` under `Service-Id`. -/
theorem service_id_kept (serviceID : String) (o : retry.options) (i : Nat) :
    (retry.perCallContext [("service-id", [serviceID])] o i).Get "Service-Id" = [serviceID] := by
  have h1 : toLower "Service-Id" = "service-id" := by decide
  have h2 : toLower retry.AttemptMetadataKey = "x-retry-attempt" := by decide
  have h3 : ("service-id" == "x-retry-attempt") = false := by decide
  unfold retry.perCallContext
  split_ifs <;> simp [MD.Get, MD.values, MD.Set, h1, h2, h3]

/-- The metadata of `NewGrpcEndpoint` passes the check of gRPC exactly when
the service id is printable ASCII. -/
theorem service_id_valid (serviceID : String) :
    Validate [("service-id", [serviceID])] = none ↔ hasNotPrintable serviceID = false := by
  have h1 : ("service-id" : String) ≠ "" := by decide
  have h2 : ("service-id" : String).data.head? ≠ some ':' := by decide
  have h3 : ("service-id" : String).data.all legalKeyChar = true := by decide
  have h4 : hasSuffix "service-id" "-bin" = false := by decide
  simp only [Validate, List.findSome?, ValidatePair]
  rw [if_neg h1, if_neg h2]
  cases h : hasNotPrintable serviceID <;> simp [h3, h4, h]

/-- The endpoint `NewGrpcEndpoint` returns, field by field. -/
theorem endpoint_fields {β : Type} (w0 : World) (now : Nat) (conn : ClientConn)
    (serviceID serviceName method : String) (grpcReply : β) :
    (NewGrpcEndpoint w0 now conn serviceID serviceName method grpcReply).2 =
      { conn := conn
        client := { method := "/" ++ serviceName ++ "/" ++ method,
                    before := [.SetRequestHeader ServiceIdHeader serviceID] }
        breaker := w0.next
        retryMax := 1
        retryTimeout := 15 * Second } := by
  rfl

/-- With `lb.Retry(1, ...)` a call is one try of the breaker-guarded endpoint; an
error of that try comes back inside an `lb.RetryError`. -/
theorem call_eq_guarded {α β : Type} (ep : Endpoint) (hmax : ep.retryMax = 1) (w : World)
    (envs : Nat → CallEnv β) (request : α) :
    (ep.call w envs request).1 = (ep.guarded w (envs 1) request).1 ∧
    (ep.call w envs request).2.sent = (ep.guarded w (envs 1) request).2.1 ∧
    (ep.call w envs request).2.response =
      (match (envs 1).outerDone with
       | some ce => .error (.context ce)
       | none =>
         match (ep.guarded w (envs 1) request).2.2 with
         | .ok response => .ok response
         | .error e => .error (.retryError [e] e)) := by
  unfold Endpoint.call
  rw [hmax]
  unfold Endpoint.retryLoop
  cases h1 : (envs 1).outerDone with
  | some ce => simp
  | none =>
    cases h2 : (ep.guarded w (envs 1) request).2.2 with
    | ok r => simp [h2]
    | error e => simp [h2]

/-- When the breaker lets the request in, the guarded endpoint sends and
returns what the transport endpoint does. -/
theorem guarded_admitted {α β : Type} (ep : Endpoint) (w : World) (env : CallEnv β)
    (request : α) (hadm : (w.breakers ep.breaker).admits env.tBefore = true) :
    (ep.guarded w env request).2 = ep.client.Endpoint ep.conn env.attempts env.reply request := by
  unfold Endpoint.guarded
  unfold gobreaker.CircuitBreaker.admits at hadm
  cases h : ((w.breakers ep.breaker).beforeRequest env.tBefore).2 with
  | ok g => simp only [h]
  | error e => rw [h] at hadm; simp at hadm

/-- When the breaker turns the request away, nothing is sent. -/
theorem guarded_rejected {α β : Type} (ep : Endpoint) (w : World) (env : CallEnv β)
    (request : α) (hadm : (w.breakers ep.breaker).admits env.tBefore = false) :
    (ep.guarded w env request).2.1 = [] := by
  unfold Endpoint.guarded
  unfold gobreaker.CircuitBreaker.admits at hadm
  cases h : ((w.breakers ep.breaker).beforeRequest env.tBefore).2 with
  | ok g => rw [h] at hadm; simp at hadm
  | error e => simp only [h]

/-- A call through an endpoint on a dialled connection sends at most three requests. -/
theorem call_sent_le_three {α β : Type} (svcHost : String) (ep : Endpoint)
    (hconn : ep.conn = dialed svcHost) (hmax : ep.retryMax = 1) (w : World)
    (envs : Nat → CallEnv β) (request : α) :
    (ep.call w envs request).2.sent.length ≤ 3 := by
  rw [(call_eq_guarded ep hmax w envs request).2.1]
  cases hadm : (w.breakers ep.breaker).admits (envs 1).tBefore with
  | false => rw [guarded_rejected ep w (envs 1) request hadm]; simp
  | true =>
    rw [guarded_admitted ep w (envs 1) request hadm, transport_endpoint_eq, hconn]
    simpa using (retry_attempts_le_three svcHost ep.client.metadata (envs 1).attempts).2

/-- A try of the guarded endpoint writes no breaker but the endpoint's own. -/
theorem guarded_frame {α β : Type} (ep : Endpoint) (w : World) (env : CallEnv β)
    (request : α) :
    (∀ a, a ≠ ep.breaker → (ep.guarded w env request).1.breakers a = w.breakers a) ∧
    (ep.guarded w env request).1.next = w.next := by
  unfold Endpoint.guarded
  cases h : ((w.breakers ep.breaker).beforeRequest env.tBefore).2 with
  | ok g =>
    simp only [h]
    exact ⟨fun a ha => by simp [World.set, ha], rfl⟩
  | error e =>
    simp only [h]
    exact ⟨fun a ha => by simp [World.set, ha], rfl⟩

/-- A try of the guarded endpoint reads the world only at the endpoint's breaker. -/
theorem guarded_local {α β : Type} (ep : Endpoint) (w w2 : World) (env : CallEnv β)
    (request : α) (hw : w2.breakers ep.breaker = w.breakers ep.breaker) :
    (ep.guarded w2 env request).2 = (ep.guarded w env request).2 ∧
    (ep.guarded w2 env request).1.breakers ep.breaker
      = (ep.guarded w env request).1.breakers ep.breaker := by
  unfold Endpoint.guarded
  rw [hw]
  cases h : ((w.breakers ep.breaker).beforeRequest env.tBefore).2 with
  | ok g => simp only [h]; constructor <;> simp [World.set]
  | error e => simp only [h]; constructor <;> simp [World.set]

/-- The balancer loop writes no breaker but the endpoint's own and allocates none. -/
theorem retryLoop_frame {α β : Type} (ep : Endpoint) (envs : Nat → CallEnv β) (request : α) :
    ∀ (fuel i : Nat) (w : World) (raw : List GoError) (sent : List (Sent α)),
      (∀ a, a ≠ ep.breaker →
        (ep.retryLoop envs request fuel i w raw sent).1.breakers a = w.breakers a) ∧
      (ep.retryLoop envs request fuel i w raw sent).1.next = w.next := by
  intro fuel
  induction fuel with
  | zero =>
    intro i w raw sent
    have hg := guarded_frame ep w (envs i) request
    unfold Endpoint.retryLoop
    cases (envs i).outerDone with
    | some ce => exact hg
    | none =>
      cases h2 : (ep.guarded w (envs i) request).2.2 with
      | ok r => simp only [h2]; exact hg
      | error e => simp only [h2]; exact hg
  | succ n ih =>
    intro i w raw sent
    have hg := guarded_frame ep w (envs i) request
    unfold Endpoint.retryLoop
    cases (envs i).outerDone with
    | some ce => exact hg
    | none =>
      cases h2 : (ep.guarded w (envs i) request).2.2 with
      | ok r => simp only [h2]; exact hg
      | error e =>
        simp only [h2]
        have hi := ih (i + 1) (ep.guarded w (envs i) request).1 (raw ++ [e])
          (sent ++ (ep.guarded w (envs i) request).2.1)
        exact ⟨fun a ha => by rw [hi.1 a ha, hg.1 a ha], by rw [hi.2, hg.2]⟩

/-- The balancer loop reads the world only at the endpoint's breaker. -/
theorem retryLoop_local {α β : Type} (ep : Endpoint) (envs : Nat → CallEnv β) (request : α) :
    ∀ (fuel i : Nat) (w w2 : World) (raw : List GoError) (sent : List (Sent α)),
      w2.breakers ep.breaker = w.breakers ep.breaker →
      (ep.retryLoop envs request fuel i w2 raw sent).2.sent
        = (ep.retryLoop envs request fuel i w raw sent).2.sent ∧
      (ep.retryLoop envs request fuel i w2 raw sent).2.response
        = (ep.retryLoop envs request fuel i w raw sent).2.response ∧
      (ep.retryLoop envs request fuel i w2 raw sent).1.breakers ep.breaker
        = (ep.retryLoop envs request fuel i w raw sent).1.breakers ep.breaker := by
  intro fuel
  induction fuel with
  | zero =>
    intro i w w2 raw sent hw
    have hg := guarded_local ep w w2 (envs i) request hw
    unfold Endpoint.retryLoop
    dsimp only
    rw [hg.1]
    cases (envs i).outerDone with
    | some ce => exact ⟨rfl, rfl, hg.2⟩
    | none =>
      cases h2 : (ep.guarded w (envs i) request).2.2 with
      | ok r => simp only [h2]; exact ⟨trivial, trivial, hg.2⟩
      | error e => simp only [h2]; exact ⟨trivial, trivial, hg.2⟩
  | succ n ih =>
    intro i w w2 raw sent hw
    have hg := guarded_local ep w w2 (envs i) request hw
    unfold Endpoint.retryLoop
    dsimp only
    rw [hg.1]
    cases (envs i).outerDone with
    | some ce => exact ⟨rfl, rfl, hg.2⟩
    | none =>
      cases h2 : (ep.guarded w (envs i) request).2.2 with
      | ok r => simp only [h2]; exact ⟨trivial, trivial, hg.2⟩
      | error e =>
        simp only [h2]
        exact ih (i + 1) (ep.guarded w (envs i) request).1 (ep.guarded w2 (envs i) request).1
          (raw ++ [e]) (sent ++ (ep.guarded w (envs i) request).2.1) hg.2

/-! ## Helper lemmas: log fields and records -/

/-- The key test is the lookup. -/
theorem hasKey_eq_lookup (f : Fields) (k : Any) :
    Fields.hasKey f k = (Fields.lookup f k).isSome := by
  induction f, k using Fields.lookup.induct with
  | case1 k2 v rest k h => simp [Fields.hasKey, Fields.lookup, h]
  | case2 k2 v rest k h ih => simp [Fields.hasKey, Fields.lookup, h, ih]
  | case3 f k h =>
    unfold Fields.hasKey Fields.lookup
    split
    · rename_i k2 v rest
      exact absurd rfl (h k2 v rest)
    · rfl

/-- The lookup in fields of even length with one more pair at the end. -/
theorem lookup_append_pair (f : Fields) (k : Any) (k2 v2 : Any) (hf : f.length % 2 = 0) :
    Fields.lookup (f ++ [k2, v2]) k
      = (Fields.lookup f k).or (if k2 == k then some v2 else none) := by
  induction f, k using Fields.lookup.induct with
  | case1 k3 v rest k h => simp [Fields.lookup, h]
  | case2 k3 v rest k h ih =>
    have hr : rest.length % 2 = 0 := by simp at hf; omega
    simp [Fields.lookup, h, ih hr]
  | case3 f k h =>
    match f, h, hf with
    | [], _, _ => simp [Fields.lookup]
    | [x], _, hf => simp at hf
    | k3 :: v :: rest, h, _ => exact absurd rfl (h k3 v rest)

/-- Appending unique fields to fields of even length gives fields of even length. -/
theorem appendUnique_even (f add : Fields) (hf : f.length % 2 = 0) :
    (Fields.AppendUnique f add).length % 2 = 0 := by
  induction f, add using Fields.AppendUnique.induct with
  | case1 f k v rest ih =>
    rw [Fields.AppendUnique]
    apply ih
    split_ifs
    · exact hf
    · simp; omega
  | case2 t f h =>
    unfold Fields.AppendUnique
    split
    · rename_i k v rest
      exact absurd rfl (h k v rest)
    · exact hf

/-- The lookup after `AppendUnique`: the fields that were there win, then the
first occurrence among the added ones. -/
theorem lookup_appendUnique (f add : Fields) (k : Any) (hf : f.length % 2 = 0) :
    Fields.lookup (Fields.AppendUnique f add) k
      = (Fields.lookup f k).or (Fields.lookup add k) := by
  induction f, add using Fields.AppendUnique.induct with
  | case1 f k2 v rest ih =>
    rw [Fields.AppendUnique]
    by_cases hk : Fields.hasKey f k2 = true
    · rw [if_pos hk] at ih ⊢
      rw [ih hf]
      rw [hasKey_eq_lookup] at hk
      by_cases h2 : (k2 == k) = true
      · have : k2 = k := by simpa using h2
        subst this
        cases hl : Fields.lookup f k2 with
        | none => rw [hl] at hk; simp at hk
        | some x => simp
      · simp [Fields.lookup, h2]
    · rw [if_neg hk] at ih ⊢
      have he : (f ++ [k2, v]).length % 2 = 0 := by simp; omega
      rw [ih he, lookup_append_pair f k k2 v hf]
      rw [hasKey_eq_lookup] at hk
      by_cases h2 : (k2 == k) = true
      · have : k2 = k := by simpa using h2
        subst this
        cases hl : Fields.lookup f k2 with
        | none => simp [Fields.lookup]
        | some x => rw [hl] at hk; simp at hk
      · cases hl : Fields.lookup f k <;> simp [Fields.lookup, h2]
  | case2 t f h =>
    unfold Fields.AppendUnique
    split
    · rename_i k2 v rest
      exact absurd rfl (h k2 v rest)
    · have : Fields.lookup t k = none := by
        match t, h with
        | [], _ => rfl
        | [x], _ => rfl
        | k3 :: v3 :: rest, h => exact absurd rfl (h k3 v3 rest)
      simp [this]

/-- The options of the logging interceptor of either chain. -/
theorem logging_options_eq :
    evaluateServerOpt [WithFieldsFromContext logTraceID] =
      { levelFunc := some .DefaultServerCodeToLevel
        loggableEvents := [.StartCall, .FinishCall]
        durationFieldFunc := .DurationToTimeMillisFields
        timestampFormat := "2006-01-02T15:04:05Z07:00"
        fieldsFromCtxFn := some logTraceID } ∧
    evaluateServerOpt logOpts =
      { levelFunc := some .DefaultServerCodeToLevel
        loggableEvents := [.StartCall, .FinishCall]
        durationFieldFunc := .DurationToTimeMillisFields
        timestampFormat := "2006-01-02T15:04:05Z07:00"
        fieldsFromCtxFn := some logTraceID } :=
  ⟨rfl, rfl⟩

/-- What `logTraceID` has under the keys the logging interceptor looks at. -/
theorem logTraceID_lookup (ctx : Context) :
    (logTraceID ctx).length % 2 = 0 ∧
    Fields.lookup (logTraceID ctx) (.str "grpc.time_ms") = none ∧
    Fields.lookup (logTraceID ctx) (.str "traceID") =
      (if (SpanContextFromContext ctx).IsSampled then
        some (.str (SpanContextFromContext ctx).traceID)
      else none) := by
  unfold logTraceID
  cases (SpanContextFromContext ctx).IsSampled <;> simp [Fields.lookup]

/-- The fields the reporter of the logging interceptor of this server starts
from: of even length, without a duration, and with the trace id under
`traceID` exactly when the span is sampled, when the call's own fields use
neither key. -/
theorem reporter_fields_lookup (call : CallInfo)
    (hms : Fields.hasKey call.fields (.str "grpc.time_ms") = false)
    (htr : Fields.hasKey call.fields (.str "traceID") = false) :
    (Fields.AppendUnique (logTraceID call.ctx) call.fields).length % 2 = 0 ∧
    Fields.lookup (Fields.AppendUnique (logTraceID call.ctx) call.fields)
      (.str "grpc.time_ms") = none ∧
    Fields.lookup (Fields.AppendUnique (logTraceID call.ctx) call.fields) (.str "traceID") =
      (if (SpanContextFromContext call.ctx).IsSampled then
        some (.str (SpanContextFromContext call.ctx).traceID)
      else none) := by
  have ht := logTraceID_lookup call.ctx
  rw [hasKey_eq_lookup] at hms htr
  have hms2 : Fields.lookup call.fields (.str "grpc.time_ms") = none := by
    cases h : Fields.lookup call.fields (.str "grpc.time_ms") with
    | none => rfl
    | some x => rw [h] at hms; simp at hms
  have htr2 : Fields.lookup call.fields (.str "traceID") = none := by
    cases h : Fields.lookup call.fields (.str "traceID") with
    | none => rfl
    | some x => rw [h] at htr; simp at htr
  refine ⟨appendUnique_even _ _ ht.1, ?_, ?_⟩
  · rw [lookup_appendUnique _ _ _ ht.1, ht.2.1, hms2]; rfl
  · rw [lookup_appendUnique _ _ _ ht.1, ht.2.2, htr2]
    cases (SpanContextFromContext call.ctx).IsSampled <;> rfl

/-- One more pair under another key leaves the lookup of a key as it is. -/
theorem lookup_appendUnique_other (f : Fields) (k2 v k : Any) (hf : f.length % 2 = 0)
    (hk : (k2 == k) = false) :
    (Fields.AppendUnique f [k2, v]).length % 2 = 0 ∧
    Fields.lookup (Fields.AppendUnique f [k2, v]) k = Fields.lookup f k := by
  refine ⟨appendUnique_even _ _ hf, ?_⟩
  rw [lookup_appendUnique _ _ _ hf]
  cases Fields.lookup f k <;> simp [Fields.lookup, hk]

/-- The duration pair at the end of a record: the duration comes under
`grpc.time_ms` when the fields before it have none, and the trace id stays. -/
theorem lookup_duration (f : Fields) (v : Any) (hf : f.length % 2 = 0)
    (hms : Fields.lookup f (.str "grpc.time_ms") = none) :
    Fields.lookup (Fields.AppendUnique f [.str "grpc.time_ms", v]) (.str "grpc.time_ms")
      = some v ∧
    Fields.lookup (Fields.AppendUnique f [.str "grpc.time_ms", v]) (.str "traceID")
      = Fields.lookup f (.str "traceID") := by
  constructor
  · rw [lookup_appendUnique _ _ _ hf, hms]; simp [Fields.lookup]
  · exact (lookup_appendUnique_other f _ v _ hf (by decide)).2

/-- The adapter at the level of a code: one call of one method, Info for OK,
Error for Internal. -/
theorem log_at_code (code : Code) :
    ∃ m, (∀ (l : GrpcLog) (msg : String) (args : List Any),
      interceptorLogger l (DefaultServerCodeToLevel code) msg args
        = .ok ⟨l.calls ++ [⟨m, msg, args⟩]⟩) ∧
      (code = .OK → m = .Info) ∧ (code = .Internal → m = .Error) := by
  cases code
  case OK => exact ⟨.Info, fun _ _ _ => rfl, fun _ => rfl, fun h => (by cases h)⟩
  case Internal => exact ⟨.Error, fun _ _ _ => rfl, fun h => (by cases h), fun _ => rfl⟩
  all_goals first
    | exact ⟨.Info, fun _ _ _ => rfl, fun h => (by cases h), fun h => (by cases h)⟩
    | exact ⟨.Warn, fun _ _ _ => rfl, fun h => (by cases h), fun h => (by cases h)⟩
    | exact ⟨.Error, fun _ _ _ => rfl, fun h => (by cases h), fun h => (by cases h)⟩

/-- The records of a unary call whose handler returns `err`. -/
theorem unary_records (name stack : String) (logger : GrpcLog) (cs : CallState)
    (err : Option GoError) :
    ∃ m, (chainInterceptors stack (InitializeGrpcServer name logger).ChainUnaryInterceptor
        (handlerEnding (.returned err)) cs).1.recovery.logger.calls
      = cs.recovery.logger.calls ++
        [⟨.Info, "started call",
          Fields.AppendUnique (Fields.AppendUnique (logTraceID cs.call.ctx) cs.call.fields)
            [.str "grpc.time_ms", cs.call.startElapsed .DurationToTimeMillisFields]⟩,
         ⟨m, "finished call",
          Fields.AppendUnique (finishFields cs.call err)
            [.str "grpc.time_ms", cs.call.finishElapsed .DurationToTimeMillisFields]⟩] ∧
      (err = none → m = .Info) := by
  have hOK : ∀ (l : GrpcLog) (msg : String) (args : List Any),
      interceptorLogger l (DefaultServerCodeToLevel .OK) msg args
        = .ok ⟨l.calls ++ [⟨.Info, msg, args⟩]⟩ := fun _ _ _ => rfl
  have hnone : DefaultErrorToCode none = .OK := rfl
  cases err with
  | none =>
    refine ⟨.Info, ?_, fun _ => rfl⟩
    simp [InitializeGrpcServer, logging_options_eq.1, chainInterceptors, Interceptor.wrap,
      handlerEnding, CallState.emit, Interceptor.kind, reporter.PostMsg, reporter.PostCall,
      CallState.Log, CodeToLevel.apply, hOK, hnone, Outcome.returned, finishFields,
      Outcome.err, reporter.fields, DurationToFields.fields, DurationToFields.key]
  | some e =>
    obtain ⟨m, hm, _, _⟩ := log_at_code (DefaultErrorToCode (some e))
    refine ⟨m, ?_, fun h => (by cases h)⟩
    simp [InitializeGrpcServer, logging_options_eq.1, chainInterceptors, Interceptor.wrap,
      handlerEnding, CallState.emit, Interceptor.kind, reporter.PostMsg, reporter.PostCall,
      CallState.Log, CodeToLevel.apply, hm, hOK, hnone, Outcome.returned, finishFields,
      Outcome.err, reporter.fields, DurationToFields.fields, DurationToFields.key]

/-- Once the start record is written, further messages write nothing. -/
theorem exchange_logged (st : CallState)
    (h1 : st.streamReporter = some (evaluateServerOpt logOpts))
    (h2 : st.startCallLogged = true) : ∀ n, exchange n st = .ok st := by
  intro n
  induction n with
  | zero => rfl
  | succ n ih =>
    have h3 : st.streamMsg = .ok st := by
      simp [CallState.streamMsg, h1, reporter.PostMsg, logging_options_eq.2, h2]
    rw [exchange, h3]
    exact ih

/-- The first message on the stream of a call writes the start record. -/
theorem exchange_first (st : CallState) (messages : Nat)
    (h1 : st.streamReporter = some (evaluateServerOpt logOpts))
    (h2 : st.startCallLogged = false) :
    exchange (messages + 1) st = .ok
      { st with
        startCallLogged := true
        recovery := { st.recovery with logger := ⟨st.recovery.logger.calls ++
          [⟨.Info, "started call",
            Fields.AppendUnique (Fields.AppendUnique (logTraceID st.call.ctx) st.call.fields)
              [.str "grpc.time_ms", st.call.startElapsed .DurationToTimeMillisFields]⟩]⟩ } } := by
  have h3 : st.streamMsg = .ok
      { st with
        startCallLogged := true
        recovery := { st.recovery with logger := ⟨st.recovery.logger.calls ++
          [⟨.Info, "started call",
            Fields.AppendUnique (Fields.AppendUnique (logTraceID st.call.ctx) st.call.fields)
              [.str "grpc.time_ms", st.call.startElapsed .DurationToTimeMillisFields]⟩]⟩ } } := by
    simp [CallState.streamMsg, h1, reporter.PostMsg, logging_options_eq.2, h2,
      CallState.Log, interceptorLogger, CodeToLevel.apply, DefaultServerCodeToLevel,
      DefaultErrorToCode, LevelInfo, LevelDebug, reporter.fields,
      DurationToFields.fields, DurationToFields.key, GrpcLog.Info]
  rw [exchange, h3]
  refine exchange_logged _ ?_ ?_ messages
  · exact h1
  · rfl

/-- The records of a streaming call whose handler exchanges at least one
message and returns `err`. -/
theorem stream_records (name stack : String) (logger : GrpcLog) (cs : CallState)
    (messages : Nat) (err : Option GoError) :
    ∃ m, (chainInterceptors stack (InitializeGrpcServer name logger).ChainStreamInterceptor
        (streamHandlerEnding (messages + 1) (.returned err)) cs).1.recovery.logger.calls
      = cs.recovery.logger.calls ++
        [⟨.Info, "started call",
          Fields.AppendUnique (Fields.AppendUnique (logTraceID cs.call.ctx) cs.call.fields)
            [.str "grpc.time_ms", cs.call.startElapsed .DurationToTimeMillisFields]⟩,
         ⟨m, "finished call",
          Fields.AppendUnique (finishFields cs.call err)
            [.str "grpc.time_ms", cs.call.finishElapsed .DurationToTimeMillisFields]⟩] ∧
      (err = none → m = .Info) := by
  have hnone : DefaultErrorToCode none = .OK := rfl
  obtain ⟨m, hm, hinfo, _⟩ := log_at_code (DefaultErrorToCode err)
  refine ⟨m, ?_, fun h => hinfo (by rw [h]; rfl)⟩
  simp only [InitializeGrpcServer, chainInterceptors, Interceptor.wrap, streamHandlerEnding]
  rw [exchange_first _ messages rfl rfl]
  cases err with
  | none =>
    simp [logging_options_eq.2, CallState.emit, Interceptor.kind, reporter.PostCall,
      CallState.Log, CodeToLevel.apply, hm, Outcome.returned, finishFields,
      Outcome.err, reporter.fields, DurationToFields.fields, DurationToFields.key]
  | some e =>
    simp [logging_options_eq.2, CallState.emit, Interceptor.kind, reporter.PostCall,
      CallState.Log, CodeToLevel.apply, hm, Outcome.returned, finishFields,
      Outcome.err, reporter.fields, DurationToFields.fields, DurationToFields.key]

/-- The records of a streaming call whose handler exchanges no message and
returns `err`: the finish record only. -/
theorem stream_silent_records (name stack : String) (logger : GrpcLog) (cs : CallState)
    (err : Option GoError) :
    ∃ m, (chainInterceptors stack (InitializeGrpcServer name logger).ChainStreamInterceptor
        (streamHandlerEnding 0 (.returned err)) cs).1.recovery.logger.calls
      = cs.recovery.logger.calls ++
        [⟨m, "finished call",
          Fields.AppendUnique (finishFields cs.call err)
            [.str "grpc.time_ms", cs.call.finishElapsed .DurationToTimeMillisFields]⟩] ∧
      (err = none → m = .Info) := by
  obtain ⟨m, hm, hinfo, _⟩ := log_at_code (DefaultErrorToCode err)
  refine ⟨m, ?_, fun h => hinfo (by rw [h]; rfl)⟩
  cases err with
  | none =>
    simp [InitializeGrpcServer, chainInterceptors, Interceptor.wrap, streamHandlerEnding,
      exchange, logging_options_eq.2, CallState.emit, Interceptor.kind, reporter.PostCall,
      CallState.Log, CodeToLevel.apply, hm, Outcome.returned, finishFields,
      Outcome.err, reporter.fields, DurationToFields.fields, DurationToFields.key]
  | some e =>
    simp [InitializeGrpcServer, chainInterceptors, Interceptor.wrap, streamHandlerEnding,
      exchange, logging_options_eq.2, CallState.emit, Interceptor.kind, reporter.PostCall,
      CallState.Log, CodeToLevel.apply, hm, Outcome.returned, finishFields,
      Outcome.err, reporter.fields, DurationToFields.fields, DurationToFields.key]

/-- The fields of a finish record: the duration under `grpc.time_ms`, the
trace id under `traceID` exactly when the span is sampled. -/
theorem finish_fields_lookup (call : CallInfo) (err : Option GoError) (v : Any)
    (hms : Fields.hasKey call.fields (.str "grpc.time_ms") = false)
    (htr : Fields.hasKey call.fields (.str "traceID") = false) :
    Fields.lookup (Fields.AppendUnique (finishFields call err) [.str "grpc.time_ms", v])
      (.str "grpc.time_ms") = some v ∧
    Fields.lookup (Fields.AppendUnique (finishFields call err) [.str "grpc.time_ms", v])
      (.str "traceID") =
      (if (SpanContextFromContext call.ctx).IsSampled then
        some (.str (SpanContextFromContext call.ctx).traceID)
      else none) := by
  obtain ⟨h0, h1, h2⟩ := reporter_fields_lookup call hms htr
  have hc1 := lookup_appendUnique_other _ (.str "grpc.code")
    (.str (DefaultErrorToCode err).String) (.str "grpc.time_ms") h0 (by decide)
  have hc2 := lookup_appendUnique_other _ (.str "grpc.code")
    (.str (DefaultErrorToCode err).String) (.str "traceID") h0 (by decide)
  cases err with
  | none =>
    have hd := lookup_duration _ v hc1.1 (by rw [hc1.2, h1])
    simp only [finishFields]
    exact ⟨hd.1, by rw [hd.2, hc2.2, h2]⟩
  | some e =>
    have he1 := lookup_appendUnique_other _ (.str "grpc.error") (.str e.Error)
      (.str "grpc.time_ms") hc1.1 (by decide)
    have he2 := lookup_appendUnique_other _ (.str "grpc.error") (.str e.Error)
      (.str "traceID") hc1.1 (by decide)
    have hd := lookup_duration _ v he1.1 (by rw [he1.2, hc1.2, h1])
    simp only [finishFields]
    exact ⟨hd.1, by rw [hd.2, he2.2, hc2.2, h2]⟩

/-- The fields of a start record: the duration under `grpc.time_ms`, the
trace id under `traceID` exactly when the span is sampled. -/
theorem start_fields_lookup (call : CallInfo) (v : Any)
    (hms : Fields.hasKey call.fields (.str "grpc.time_ms") = false)
    (htr : Fields.hasKey call.fields (.str "traceID") = false) :
    Fields.lookup (Fields.AppendUnique (Fields.AppendUnique (logTraceID call.ctx) call.fields)
      [.str "grpc.time_ms", v]) (.str "grpc.time_ms") = some v ∧
    Fields.lookup (Fields.AppendUnique (Fields.AppendUnique (logTraceID call.ctx) call.fields)
      [.str "grpc.time_ms", v]) (.str "traceID") =
      (if (SpanContextFromContext call.ctx).IsSampled then
        some (.str (SpanContextFromContext call.ctx).traceID)
      else none) := by
  obtain ⟨h0, h1, h2⟩ := reporter_fields_lookup call hms htr
  have hd := lookup_duration _ v h0 h1
  exact ⟨hd.1, by rw [hd.2, h2]⟩

/-! ## Server: panic recovery, metrics, interceptor chains, logging -/

/-- C1 (amended): for every panic value `p`, the recovery handler installed
by `InitializeGrpcServer` adds exactly one to the panic counter
`grpc_req_panics_recovered_total`, logs one error record with the stack, and
returns a status error with code Internal; when `p` is a string, an error or
a Stringer, the message of that error is the text `s` of `p`, which is its
stringified value.  A call whose handler panics with `p` ends, on the unary
and on the streaming chain, with an Internal error (with message `s` for the
string `s`) and one more recovered panic counted; on the unary chain the
injected logger gets the start record, the record of the recovery handler
and the finish record at level Error. -/
theorem recovery_handler_counts_and_returns_internal (name stack : String) (logger : GrpcLog)
    (p : Any) (s : String) (st : RecoveryState) (cs : CallState) :
    (grpcPanicRecoveryHandler stack p st).1.panicsTotal = st.panicsTotal + 1 ∧
    (grpcPanicRecoveryHandler stack p st).1.logger.calls
      = st.logger.calls ++ [⟨.Error, "recovered from panic, stack: " ++ stack, []⟩] ∧
    (grpcPanicRecoveryHandler stack p st).2.code = .Internal ∧
    (grpcPanicRecoveryHandler stack (.str s) st).2 = GoError.status .Internal s ∧
    (grpcPanicRecoveryHandler stack (.err s) st).2 = GoError.status .Internal s ∧
    (grpcPanicRecoveryHandler stack (.stringer s) st).2 = GoError.status .Internal s ∧
    (Any.str s).stringified = s ∧ (Any.err s).stringified = s ∧
    (Any.stringer s).stringified = s ∧
    (InitializeGrpcServer name logger).panicsTotal.Name = "grpc_req_panics_recovered_total" ∧
    (chainInterceptors stack (InitializeGrpcServer name logger).ChainUnaryInterceptor
        (handlerEnding (.panicked p)) cs).1.recovery.panicsTotal
      = cs.recovery.panicsTotal + 1 ∧
    (∃ msg, (chainInterceptors stack (InitializeGrpcServer name logger).ChainUnaryInterceptor
        (handlerEnding (.panicked p)) cs).2 = Outcome.failed (.status .Internal msg)) ∧
    (chainInterceptors stack (InitializeGrpcServer name logger).ChainUnaryInterceptor
        (handlerEnding (.panicked (.str s))) cs).2 = Outcome.failed (.status .Internal s) ∧
    (chainInterceptors stack (InitializeGrpcServer name logger).ChainUnaryInterceptor
        (handlerEnding (.panicked p)) cs).1.recovery.logger.calls.map
        (fun c => (c.method, c.msg))
      = cs.recovery.logger.calls.map (fun c => (c.method, c.msg)) ++
        [(.Info, "started call"), (.Error, "recovered from panic, stack: " ++ stack),
         (.Error, "finished call")] ∧
    (chainInterceptors stack (InitializeGrpcServer name logger).ChainStreamInterceptor
        (handlerEnding (.panicked p)) cs).1.recovery.panicsTotal
      = cs.recovery.panicsTotal + 1 ∧
    (∃ msg, (chainInterceptors stack (InitializeGrpcServer name logger).ChainStreamInterceptor
        (handlerEnding (.panicked p)) cs).2 = Outcome.failed (.status .Internal msg)) ∧
    (chainInterceptors stack (InitializeGrpcServer name logger).ChainStreamInterceptor
        (handlerEnding (.panicked (.str s))) cs).2 = Outcome.failed (.status .Internal s) := by
  have hOK : ∀ (l : GrpcLog) (msg : String) (args : List Any),
      interceptorLogger l (DefaultServerCodeToLevel .OK) msg args
        = .ok ⟨l.calls ++ [⟨.Info, msg, args⟩]⟩ := fun _ _ _ => rfl
  have hInt : ∀ (l : GrpcLog) (msg : String) (args : List Any),
      interceptorLogger l (DefaultServerCodeToLevel .Internal) msg args
        = .ok ⟨l.calls ++ [⟨.Error, msg, args⟩]⟩ := fun _ _ _ => rfl
  have hnone : DefaultErrorToCode none = .OK := rfl
  have hsome : ∀ msg, DefaultErrorToCode (some (.status .Internal msg)) = .Internal :=
    fun _ => rfl
  refine ⟨rfl, rfl, rfl, rfl, rfl, rfl, rfl, rfl, rfl, rfl, ?_, ⟨p.formatS, ?_⟩, ?_, ?_, ?_,
    ⟨p.formatS, ?_⟩, ?_⟩ <;>
  simp [InitializeGrpcServer, logging_options_eq.1, logging_options_eq.2, chainInterceptors,
    Interceptor.wrap, handlerEnding, CallState.emit, Interceptor.kind, reporter.PostMsg,
    reporter.PostCall, CallState.Log, CodeToLevel.apply, hOK, hInt, hnone, hsome,
    Outcome.err, reporter.fields, DurationToFields.fields, DurationToFields.key,
    grpcPanicRecoveryHandler, statusErrorfS, GrpcLog.Error, Any.formatS]

/-- C1, counterexample: the handler panics with the integer 42.  The message
of the Internal error is `%!s(int=42)`, what the verb `%s` makes of an
integer, and not the stringified value `42`; the panic is counted once and
the three records are written. -/
theorem panic_with_int_is_not_stringified :
    (grpcPanicRecoveryHandler "" (.int 42) (callWithFlags 1).recovery).2
      = .status .Internal "%!s(int=42)" ∧
    (Any.int 42).stringified = "42" ∧
    (grpcPanicRecoveryHandler "" (.int 42) (callWithFlags 1).recovery).2
      ≠ .status .Internal (Any.int 42).stringified ∧
    (chainInterceptors "" (InitializeGrpcServer "svc" ⟨[]⟩).ChainUnaryInterceptor
        (handlerEnding (.panicked (.int 42))) (callWithFlags 1)).1.recovery.panicsTotal = 1 ∧
    (chainInterceptors "" (InitializeGrpcServer "svc" ⟨[]⟩).ChainUnaryInterceptor
        (handlerEnding (.panicked (.int 42))) (callWithFlags 1)).1.recovery.logger.calls.map
        (fun c => (c.method, c.msg))
      = [(.Info, "started call"), (.Error, "recovered from panic, stack: "),
         (.Error, "finished call")] := by
  refine ⟨rfl, rfl, ?_, rfl, by decide⟩
  intro h
  have h2 : GoError.status .Internal "%!s(int=42)" = GoError.status .Internal "42" := h
  injection h2 with _ h3
  exact absurd h3 (by decide)

/-- C2, at the server name `svc`: the four request counters and the panic
counter get namespace `svc` and the label `serviceID=svc`; the handling-time
histogram gets the label but its namespace stays empty. -/
theorem metrics_of_svc :
    (InitializeGrpcServer "svc" ⟨[]⟩).metrics.map
        (fun m => (m.Name, m.Namespace, m.ConstLabels))
      = [("grpc_server_started_total", "svc", [("serviceID", "svc")]),
         ("grpc_server_handled_total", "svc", [("serviceID", "svc")]),
         ("grpc_server_msg_received_total", "svc", [("serviceID", "svc")]),
         ("grpc_server_msg_sent_total", "svc", [("serviceID", "svc")]),
         ("grpc_server_handling_seconds", "", [("serviceID", "svc")]),
         ("grpc_req_panics_recovered_total", "svc", [("serviceID", "svc")])] := by
  rfl

/-- For every server name: every metric of `InitializeGrpcServer` carries the
label `serviceID=<name>`, every counter has namespace `<name>`, and the
histogram has the empty namespace. -/
theorem metrics_labels_and_namespaces (name : String) (logger : GrpcLog) :
    (∀ m ∈ (InitializeGrpcServer name logger).metrics,
      m.ConstLabels = [("serviceID", name)] ∧
      (m.isHistogram = false → m.Namespace = name) ∧
      (m.isHistogram = true → m.Namespace = "")) ∧
    (InitializeGrpcServer name logger).srvMetrics.serverHandledHistogram.map
      HistogramOpts.desc
      = some { isHistogram := true, Namespace := "", Name := "grpc_server_handling_seconds",
               ConstLabels := [("serviceID", name)] } := by
  refine ⟨?_, rfl⟩
  intro m hm
  simp [GrpcServer.metrics, InitializeGrpcServer, srvMetrics, NewServerMetrics,
    ServerMetrics.descs, WithServerCounterOptions, WithServerHandlingTimeHistogram,
    counterOptionsApply, histogramOptionsApply, WithConstLabels, WithHistogramConstLabels,
    WithHistogramBuckets, baseCounter, CounterOpts.desc, HistogramOpts.desc, panicsTotal] at hm
  rcases hm with h | h | h | h | h | h <;> subst h <;> simp

/-- C7: in the server built by `InitializeGrpcServer` the unary chain and the
streaming chain are the same four interceptors in the same order, outermost
first: trace propagation, request metrics, structured logging, panic
recovery; a call enters them in that order, reaches the handler inside
panic recovery, and leaves them in the reverse order. -/
theorem interceptor_chains_order (name stack : String) (logger : GrpcLog) (cs : CallState) :
    (InitializeGrpcServer name logger).ChainUnaryInterceptor.map Interceptor.kind
      = [.tracePropagation, .requestMetrics, .structuredLogging, .panicRecovery] ∧
    (InitializeGrpcServer name logger).ChainStreamInterceptor.map Interceptor.kind
      = [.tracePropagation, .requestMetrics, .structuredLogging, .panicRecovery] ∧
    (chainInterceptors stack (InitializeGrpcServer name logger).ChainUnaryInterceptor
        (handlerEnding .reply) cs).1.trace
      = cs.trace ++ [.enter .tracePropagation, .enter .requestMetrics,
          .enter .structuredLogging, .enter .panicRecovery, .handler,
          .leave .panicRecovery, .leave .structuredLogging, .leave .requestMetrics,
          .leave .tracePropagation] ∧
    (chainInterceptors stack (InitializeGrpcServer name logger).ChainStreamInterceptor
        (handlerEnding .reply) cs).1.trace
      = cs.trace ++ [.enter .tracePropagation, .enter .requestMetrics,
          .enter .structuredLogging, .enter .panicRecovery, .handler,
          .leave .panicRecovery, .leave .structuredLogging, .leave .requestMetrics,
          .leave .tracePropagation] := by
  refine ⟨rfl, rfl, ?_, ?_⟩
  · simp [InitializeGrpcServer, logging_options_eq.1, chainInterceptors, Interceptor.wrap,
      handlerEnding, CallState.emit, Interceptor.kind, reporter.PostMsg, reporter.PostCall,
      CallState.Log, interceptorLogger, CodeToLevel.apply, DefaultServerCodeToLevel,
      DefaultErrorToCode, Outcome.err, LevelInfo, LevelDebug]
  · simp [InitializeGrpcServer, logging_options_eq.2, chainInterceptors, Interceptor.wrap,
      handlerEnding, CallState.emit, Interceptor.kind, reporter.PostMsg, reporter.PostCall,
      CallState.Log, interceptorLogger, CodeToLevel.apply, DefaultServerCodeToLevel,
      DefaultErrorToCode, Outcome.err, LevelInfo, LevelDebug]

/-- The options the unary chain passes and the options the streaming chain
passes evaluate to the same value exactly when the defaults they start from
log on call start and call finish and report the duration in milliseconds. -/
theorem unary_and_stream_options_agree_iff (d : LoggingOptions) :
    evaluateServerOptFrom d [WithFieldsFromContext logTraceID] = evaluateServerOptFrom d logOpts ↔
      d.loggableEvents = [.StartCall, .FinishCall] ∧
      d.durationFieldFunc = .DurationToTimeMillisFields := by
  simp [evaluateServerOptFrom, logOpts, WithFieldsFromContext, WithLogOnEvents,
    WithDurationField, LoggingOptions.mk.injEq]

/-- C8 (amended): the logging interceptors of the unary chain and of the
streaming chain get the same logger and the same effective options.  For a
call whose own fields use neither key `grpc.time_ms` nor `traceID` and whose
handler returns `err`: on the unary chain the injected logger gets the
record `started call` at level Info and then the record `finished call` (at
level Info when `err` is nil); on the streaming chain it gets the same two
records when the handler exchanges at least one message on the stream, the
start record being written at the first message, and the finish record only
when the handler exchanges none.  Every record carries the time elapsed
under `grpc.time_ms`, and under `traceID` the trace id of the span of the
context exactly when that span is sampled. -/
theorem logging_interceptor_same_on_both_paths (name stack : String) (logger : GrpcLog)
    (cs : CallState) (err : Option GoError) (messages : Nat)
    (hms : Fields.hasKey cs.call.fields (.str "grpc.time_ms") = false)
    (htr : Fields.hasKey cs.call.fields (.str "traceID") = false) :
    loggingInterceptorOf (InitializeGrpcServer name logger).ChainUnaryInterceptor
      = some (logger, evaluateServerOpt [WithFieldsFromContext logTraceID]) ∧
    loggingInterceptorOf (InitializeGrpcServer name logger).ChainStreamInterceptor
      = some (logger, evaluateServerOpt logOpts) ∧
    evaluateServerOpt [WithFieldsFromContext logTraceID] = evaluateServerOpt logOpts ∧
    (∃ (m : LogMethod) (a b : Fields),
      (chainInterceptors stack (InitializeGrpcServer name logger).ChainUnaryInterceptor
          (handlerEnding (.returned err)) cs).1.recovery.logger.calls
        = cs.recovery.logger.calls ++
          [⟨.Info, "started call", a⟩, ⟨m, "finished call", b⟩] ∧
      (err = none → m = .Info) ∧
      Fields.lookup a (.str "grpc.time_ms")
        = some (cs.call.startElapsed .DurationToTimeMillisFields) ∧
      Fields.lookup b (.str "grpc.time_ms")
        = some (cs.call.finishElapsed .DurationToTimeMillisFields) ∧
      Fields.lookup a (.str "traceID") =
        (if (SpanContextFromContext cs.call.ctx).IsSampled then
          some (.str (SpanContextFromContext cs.call.ctx).traceID) else none) ∧
      Fields.lookup b (.str "traceID") =
        (if (SpanContextFromContext cs.call.ctx).IsSampled then
          some (.str (SpanContextFromContext cs.call.ctx).traceID) else none)) ∧
    (∃ (m : LogMethod) (a b : Fields),
      (chainInterceptors stack (InitializeGrpcServer name logger).ChainStreamInterceptor
          (streamHandlerEnding (messages + 1) (.returned err)) cs).1.recovery.logger.calls
        = cs.recovery.logger.calls ++
          [⟨.Info, "started call", a⟩, ⟨m, "finished call", b⟩] ∧
      (err = none → m = .Info) ∧
      Fields.lookup a (.str "grpc.time_ms")
        = some (cs.call.startElapsed .DurationToTimeMillisFields) ∧
      Fields.lookup b (.str "grpc.time_ms")
        = some (cs.call.finishElapsed .DurationToTimeMillisFields) ∧
      Fields.lookup a (.str "traceID") =
        (if (SpanContextFromContext cs.call.ctx).IsSampled then
          some (.str (SpanContextFromContext cs.call.ctx).traceID) else none) ∧
      Fields.lookup b (.str "traceID") =
        (if (SpanContextFromContext cs.call.ctx).IsSampled then
          some (.str (SpanContextFromContext cs.call.ctx).traceID) else none)) ∧
    (∃ (m : LogMethod) (b : Fields),
      (chainInterceptors stack (InitializeGrpcServer name logger).ChainStreamInterceptor
          (streamHandlerEnding 0 (.returned err)) cs).1.recovery.logger.calls
        = cs.recovery.logger.calls ++ [⟨m, "finished call", b⟩] ∧
      (err = none → m = .Info) ∧
      Fields.lookup b (.str "grpc.time_ms")
        = some (cs.call.finishElapsed .DurationToTimeMillisFields) ∧
      Fields.lookup b (.str "traceID") =
        (if (SpanContextFromContext cs.call.ctx).IsSampled then
          some (.str (SpanContextFromContext cs.call.ctx).traceID) else none)) := by
  have hs := start_fields_lookup cs.call (cs.call.startElapsed .DurationToTimeMillisFields)
    hms htr
  have hf := finish_fields_lookup cs.call err
    (cs.call.finishElapsed .DurationToTimeMillisFields) hms htr
  obtain ⟨m1, h1, hm1⟩ := unary_records name stack logger cs err
  obtain ⟨m2, h2, hm2⟩ := stream_records name stack logger cs messages err
  obtain ⟨m3, h3, hm3⟩ := stream_silent_records name stack logger cs err
  exact ⟨rfl, rfl, rfl, ⟨m1, _, _, h1, hm1, hs.1, hf.1, hs.2, hf.2⟩,
    ⟨m2, _, _, h2, hm2, hs.1, hf.1, hs.2, hf.2⟩, ⟨m3, _, h3, hm3, hf.1, hf.2⟩⟩

/-- C8, witness: a call on the server `svc` with a sampled span, 21
microseconds old at the start record and 12 milliseconds at the finish
record.  The unary chain writes the two records shown; the streaming chain
writes the same two when the handler exchanges two messages; without the
sampled flag neither record has a `traceID` field. -/
theorem logging_records_witness :
    (chainInterceptors "" (InitializeGrpcServer "svc" ⟨[]⟩).ChainUnaryInterceptor
        (handlerEnding .reply) (callWithFlags 1)).1.recovery.logger.calls
      = [⟨.Info, "started call",
          [.str "traceID", .str "4bf92f3577b34da6a3ce929d0e0e4736",
           .str "protocol", .str "grpc", .str "grpc.component", .str "server",
           .str "grpc.service", .str "chat.Room", .str "grpc.method", .str "Get",
           .str "grpc.time_ms", .float32 "0.021"]⟩,
         ⟨.Info, "finished call",
          [.str "traceID", .str "4bf92f3577b34da6a3ce929d0e0e4736",
           .str "protocol", .str "grpc", .str "grpc.component", .str "server",
           .str "grpc.service", .str "chat.Room", .str "grpc.method", .str "Get",
           .str "grpc.code", .str "OK", .str "grpc.time_ms", .float32 "12"]⟩] ∧
    (chainInterceptors "" (InitializeGrpcServer "svc" ⟨[]⟩).ChainStreamInterceptor
        (streamHandlerEnding 2 .reply) (callWithFlags 1)).1.recovery.logger.calls
      = (chainInterceptors "" (InitializeGrpcServer "svc" ⟨[]⟩).ChainUnaryInterceptor
        (handlerEnding .reply) (callWithFlags 1)).1.recovery.logger.calls ∧
    (chainInterceptors "" (InitializeGrpcServer "svc" ⟨[]⟩).ChainUnaryInterceptor
        (handlerEnding .reply) (callWithFlags 0)).1.recovery.logger.calls.map
        (fun c => (c.msg, Fields.lookup c.args (.str "traceID")))
      = [("started call", none), ("finished call", none)] ∧
    (∃ (m : LogMethod) (a b : Fields),
      (chainInterceptors "" (InitializeGrpcServer "svc" ⟨[]⟩).ChainUnaryInterceptor
          (handlerEnding .reply) (callWithFlags 1)).1.recovery.logger.calls
        = [⟨.Info, "started call", a⟩, ⟨m, "finished call", b⟩]) := by
  have h := logging_interceptor_same_on_both_paths "svc" "" ⟨[]⟩ (callWithFlags 1) none 1
    (by decide) (by decide)
  obtain ⟨m, a, b, hr, _⟩ := h.2.2.2.1
  exact ⟨by decide, by decide, by decide, ⟨m, a, b, hr⟩⟩

/-- C8, counterexample: on the streaming chain a handler that replies without
receiving or sending a message gets no record on call start, only the
record `finished call`; the same call on the unary chain, and a streaming
call with one message, get both records. -/
theorem stream_without_messages_has_no_start_record :
    (chainInterceptors "" (InitializeGrpcServer "svc" ⟨[]⟩).ChainStreamInterceptor
        (streamHandlerEnding 0 .reply) (callWithFlags 1)).1.recovery.logger.calls.map
        (fun c => (c.method, c.msg))
      = [(.Info, "finished call")] ∧
    (chainInterceptors "" (InitializeGrpcServer "svc" ⟨[]⟩).ChainStreamInterceptor
        (streamHandlerEnding 0 .reply) (callWithFlags 1)).2.err = none ∧
    (chainInterceptors "" (InitializeGrpcServer "svc" ⟨[]⟩).ChainUnaryInterceptor
        (handlerEnding .reply) (callWithFlags 1)).1.recovery.logger.calls.map
        (fun c => (c.method, c.msg))
      = [(.Info, "started call"), (.Info, "finished call")] ∧
    (chainInterceptors "" (InitializeGrpcServer "svc" ⟨[]⟩).ChainStreamInterceptor
        (streamHandlerEnding 1 .reply) (callWithFlags 1)).1.recovery.logger.calls.map
        (fun c => (c.method, c.msg))
      = [(.Info, "started call"), (.Info, "finished call")] := by
  refine ⟨by decide, rfl, by decide, by decide⟩

/-! ## Client: retries -/

/-- C3 (amended): on a client built by `InitializeGrpcClient`, a unary call
whose three attempts all end with Unavailable or Aborted while the caller's
context stays live makes exactly three attempts, sends three requests, and
the connection returns the error of the third attempt.  Through an endpoint
built by `NewGrpcEndpoint` on that client, with the breaker letting the call
in, the same three requests are sent and the caller gets an `lb.RetryError`
whose final error and only raw error is that last error.  No unary call,
whatever its metadata and its attempts, makes more than three attempts or
sends more than three requests. -/
theorem retry_exhaustion_three_attempts_last_error {α β : Type}
    (svcHost : String) (conn : ClientConn) (md : MD) (env : Nat → retry.AttemptEnv)
    (errs : Nat → GoError) (w0 : World) (now : Nat)
    (serviceID serviceName method : String) (grpcReply : β) (ep : Endpoint)
    (hconn : InitializeGrpcClient svcHost none = .ok conn)
    (hep : ep = (NewGrpcEndpoint w0 now conn serviceID serviceName method grpcReply).2)
    (hfail : ∀ i, i < 3 → conn.attemptResult md env i = some (errs i) ∧
      ((errs i).code = .Unavailable ∨ (errs i).code = .Aborted))
    (hlive : ∀ i, i < 3 → (env i).parentDoneInBackoff = none) :
    (conn.Invoke md env).attempts = 3 ∧
    (conn.Invoke md env).sent.length = 3 ∧
    (conn.Invoke md env).err = some (errs 2) ∧
    (∀ (w : World) (envs : Nat → CallEnv β) (request : α),
      ep.client.metadata = md → (envs 1).attempts = env → (envs 1).outerDone = none →
      (w.breakers ep.breaker).admits (envs 1).tBefore = true →
      (ep.call w envs request).2.sent.length = 3 ∧
      (ep.call w envs request).2.response = .error (.retryError [errs 2] (errs 2))) ∧
    (∀ (md2 : MD) (env2 : Nat → retry.AttemptEnv),
      (conn.Invoke md2 env2).attempts ≤ 3 ∧ (conn.Invoke md2 env2).sent.length ≤ 3) ∧
    (∀ (w2 : World) (envs2 : Nat → CallEnv β) (request : α),
      (ep.call w2 envs2 request).2.sent.length ≤ 3) := by
  have hc := conn_eq_dialed hconn
  subst hc
  have hepc : ep.conn = dialed svcHost := by rw [hep]; rfl
  have hmax : ep.retryMax = 1 := by rw [hep]; rfl
  have hrun := retry_loop_exhaust (dialed svcHost).unaryInterceptor md env errs 2 0 none []
    (fun i _ hi => by
      have hi3 : i < 3 := by omega
      obtain ⟨hr, hcode⟩ := hfail i hi3
      have := retriable_of_code svcHost (errs i) hcode
      exact ⟨hr, this.1, this.2.1, this.2.2, hlive i hi3⟩)
  have hinv : (dialed svcHost).Invoke md env
      = retry.loop (dialed svcHost).unaryInterceptor md env 3 0 none [] := by
    simp only [ClientConn.Invoke, retry.UnaryClientInterceptor, dialed_unaryInterceptor]
    rw [if_neg (by decide)]
  rw [← hinv] at hrun
  refine ⟨by simpa using hrun.1, by simpa using hrun.2.2, by simpa using hrun.2.1, ?_,
    fun md2 env2 => retry_attempts_le_three svcHost md2 env2,
    fun w2 envs2 request => call_sent_le_three svcHost ep hepc hmax w2 envs2 request⟩
  intro w envs request hmd henv houter hadm
  have hcall := call_eq_guarded ep hmax w envs request
  have hg := guarded_admitted ep w (envs 1) request hadm
  rw [transport_endpoint_eq, hepc, hmd, henv] at hg
  constructor
  · rw [hcall.2.1, hg]
    simpa using hrun.2.2
  · rw [hcall.2.2, houter, hg]
    have he : ((dialed svcHost).Invoke md env).err = some (errs 2) := by simpa using hrun.2.1
    simp only [he]

/-- C3, witness: the service is down and the breaker of `endpointOne` is
closed; three requests leave and the caller gets the wrapped last error. -/
theorem retry_exhaustion_witness :
    ((dialed "room:5000").Invoke [("service-id", ["room-service"])]
      (attemptsAll (some down))).attempts = 3 ∧
    ((dialed "room:5000").Invoke [("service-id", ["room-service"])]
      (attemptsAll (some down))).err = some down ∧
    (endpointOne.call worldOne (triesAt 0 (attemptsAll (some down))) "ping").2.sent.length = 3 ∧
    (endpointOne.call worldOne (triesAt 0 (attemptsAll (some down))) "ping").2.response
      = .error (.retryError [down] down) := by
  have h := retry_exhaustion_three_attempts_last_error (α := String) "room:5000"
    (dialed "room:5000") [("service-id", ["room-service"])] (attemptsAll (some down))
    (fun _ => down) emptyWorld 0 "room-service" "chat.Room" "Get" "" endpointOne rfl rfl
    (fun i hi => by
      have h3 : i = 0 ∨ i = 1 ∨ i = 2 := by omega
      rcases h3 with h | h | h <;> subst h <;> exact ⟨rfl, Or.inl rfl⟩)
    (fun _ _ => rfl)
  have h2 := h.2.2.2.1 worldOne (triesAt 0 (attemptsAll (some down))) "ping" rfl rfl rfl
    (by decide)
  exact ⟨h.1, h.2.2.1, h2.1, h2.2⟩

/-- C3, counterexample: two unary calls whose attempts all fail with
Unavailable and whose caller does not get the error of the last attempt.
Through `endpointOne`, built by `NewGrpcEndpoint` on a client built by
`InitializeGrpcClient`, three attempts fail and the caller gets an
`lb.RetryError` around the last error.  On the connection itself, when the
caller cancels during the wait after the first failed attempt, one request
has gone out and the caller gets the status Canceled of the context. -/
theorem caller_error_is_not_last_attempt_error :
    InitializeGrpcClient "room:5000" none = .ok endpointOne.conn ∧
    down.code = .Unavailable ∧
    (∀ i, (attemptsAll (some down) i).result = some down) ∧
    (endpointOne.call worldOne (triesAt 0 (attemptsAll (some down))) "ping").2.sent.length = 3 ∧
    (endpointOne.call worldOne (triesAt 0 (attemptsAll (some down))) "ping").2.response
      = .error (.retryError [down] down) ∧
    (endpointOne.call worldOne (triesAt 0 (attemptsAll (some down))) "ping").2.response
      ≠ .error down ∧
    (∀ i, (attemptsCanceledInBackoff down i).result = some down) ∧
    (endpointOne.conn.Invoke endpointOne.client.metadata
      (attemptsCanceledInBackoff down)).attempts = 1 ∧
    (endpointOne.conn.Invoke endpointOne.client.metadata
      (attemptsCanceledInBackoff down)).sent = [[("service-id", ["room-service"])]] ∧
    (endpointOne.conn.Invoke endpointOne.client.metadata
      (attemptsCanceledInBackoff down)).err = some (.status .Canceled "context canceled") ∧
    (endpointOne.conn.Invoke endpointOne.client.metadata
      (attemptsCanceledInBackoff down)).err ≠ some down := by
  refine ⟨rfl, rfl, fun _ => rfl, by decide, rfl, ?_, fun _ => rfl, by decide, by decide,
    rfl, ?_⟩
  · intro h
    have h2 : (Except.error (GoError.retryError [down] down) : Except GoError String)
        = .error down := h
    injection h2 with h3
    simp [down] at h3
  · intro h
    have h2 : some (GoError.status .Canceled "context canceled") = some down := h
    simp [down] at h2

/-- C4 (amended): on a client built by `InitializeGrpcClient`, a unary call
makes exactly one attempt when the first attempt succeeds, or ends with a
code other than Unavailable, Aborted, DeadlineExceeded and Canceled, or ends
with DeadlineExceeded or Canceled while the caller's own context has an
error; the call returns what that attempt returned, and the one request goes
out unless gRPC refuses the metadata of the call.  The same holds through an
endpoint built by `NewGrpcEndpoint` on the client, the breaker letting the
call in: one request is sent, none when the service id is not printable
ASCII.  A first attempt that ends with DeadlineExceeded or Canceled while
the caller's context is live is retried: unless the caller's context ends
during the backoff, a second attempt is made. -/
theorem single_attempt_unless_retriable_or_attempt_timeout {α β : Type}
    (svcHost : String) (conn : ClientConn) (md : MD) (env : Nat → retry.AttemptEnv)
    (w0 : World) (now : Nat)
    (serviceID serviceName method : String) (grpcReply : β) (ep : Endpoint)
    (hconn : InitializeGrpcClient svcHost none = .ok conn)
    (hep : ep = (NewGrpcEndpoint w0 now conn serviceID serviceName method grpcReply).2)
    (hcode : ∀ e, conn.attemptResult md env 0 = some e →
      e.code ≠ .Unavailable ∧ e.code ≠ .Aborted ∧
      (retry.isContextError e = true → (env 0).parentErrAfter = true)) :
    (conn.Invoke md env).attempts = 1 ∧
    (conn.Invoke md env).err = conn.attemptResult md env 0 ∧
    (conn.Invoke md env).sent = (if Validate md = none then [md] else []) ∧
    (∀ (w : World) (envs : Nat → CallEnv β) (request : α),
      ep.client.metadata = md → (envs 1).attempts = env →
      (w.breakers ep.breaker).admits (envs 1).tBefore = true →
      (ep.call w envs request).2.sent.length = (if hasNotPrintable serviceID then 0 else 1)) ∧
    (∀ (md2 : MD) (env2 : Nat → retry.AttemptEnv) (e : GoError),
      conn.attemptResult md2 env2 0 = some e →
      retry.isContextError e = true → (env2 0).parentErrAfter = false →
      (env2 1).parentDoneInBackoff = none → 2 ≤ (conn.Invoke md2 env2).attempts) := by
  have hc := conn_eq_dialed hconn
  subst hc
  have hepc : ep.conn = dialed svcHost := by rw [hep]; rfl
  have hmax : ep.retryMax = 1 := by rw [hep]; rfl
  have hmeta : ep.client.metadata = [("service-id", [serviceID])] := by
    rw [hep]; exact service_id_metadata serviceName method serviceID
  have hrun := invoke_first_not_retried svcHost md env hcode
  refine ⟨by rw [hrun], by rw [hrun], by rw [hrun]; exact invoke_sent md (env 0), ?_,
    fun md2 env2 e hr hc hp hb => invoke_context_error_retried svcHost md2 env2 e hr hc hp hb⟩
  intro w envs request hmd henv hadm
  have hcall := call_eq_guarded ep hmax w envs request
  have hg := guarded_admitted ep w (envs 1) request hadm
  rw [transport_endpoint_eq, hepc, hmd, henv, hrun] at hg
  rw [hcall.2.1, hg]
  simp only [List.length_map]
  rw [invoke_sent, ← hmd, hmeta]
  cases hp : hasNotPrintable serviceID with
  | false => rw [if_pos ((service_id_valid serviceID).2 hp)]; rfl
  | true =>
    rw [if_neg (fun h => by rw [(service_id_valid serviceID).1 h] at hp; cases hp)]
    rfl

/-- C4, witness: the peer answers PermissionDenied; one request leaves. -/
theorem single_attempt_witness :
    ((dialed "room:5000").Invoke [("service-id", ["room-service"])]
      (attemptsAll (some (.status .PermissionDenied "denied")))).attempts = 1 ∧
    ((dialed "room:5000").Invoke [("service-id", ["room-service"])]
      (attemptsAll (some (.status .PermissionDenied "denied")))).sent
      = [[("service-id", ["room-service"])]] ∧
    (endpointOne.call worldOne
      (triesAt 0 (attemptsAll (some (.status .PermissionDenied "denied"))))
      "ping").2.sent.length = 1 := by
  have h := single_attempt_unless_retriable_or_attempt_timeout (α := String) "room:5000"
    (dialed "room:5000") [("service-id", ["room-service"])]
    (attemptsAll (some (.status .PermissionDenied "denied")))
    emptyWorld 0 "room-service" "chat.Room" "Get" "" endpointOne rfl rfl
    (fun e he => by
      have h1 : GoError.status .PermissionDenied "denied" = e := Option.some.inj he
      subst h1
      exact ⟨by decide, by decide, by decide⟩)
  exact ⟨h.1, h.2.2.1,
    h.2.2.2.1 worldOne (triesAt 0 (attemptsAll (some (.status .PermissionDenied "denied"))))
      "ping" rfl rfl (by decide)⟩

/-- C4, counterexample: the first attempt ends with DeadlineExceeded, a code
outside Unavailable and Aborted, while the caller's context is live (the
3 s limit of the attempt ran out); the client makes a second attempt, and
through `endpointOne` two requests are sent. -/
theorem attempt_timeout_is_retried :
    (attemptsFirst (.status .DeadlineExceeded "context deadline exceeded") 0).result
      = some (.status .DeadlineExceeded "context deadline exceeded") ∧
    Code.DeadlineExceeded ≠ Code.Unavailable ∧ Code.DeadlineExceeded ≠ Code.Aborted ∧
    ((dialed "room:5000").Invoke [("service-id", ["room-service"])]
      (attemptsFirst (.status .DeadlineExceeded "context deadline exceeded"))).attempts = 2 ∧
    (endpointOne.call worldOne
      (triesAt 0 (attemptsFirst (.status .DeadlineExceeded "context deadline exceeded")))
      "ping").2.sent.length = 2 := by
  refine ⟨rfl, by decide, by decide, by decide, by decide⟩

/-- C5: for every `serviceID`, `serviceName` and `method`, every request sent
by a call through the endpoint returned by `NewGrpcEndpoint`, on any
connection, carries the metadata header `Service-Id` with the single value
`serviceID`; the request goes to `/serviceName/method` with the request
value unchanged. -/
theorem service_id_header_on_every_request {α β : Type}
    (conn : ClientConn) (w0 : World) (now : Nat)
    (serviceID serviceName method : String) (grpcReply : β) (ep : Endpoint)
    (w : World) (envs : Nat → CallEnv β) (request : α) (r : Sent α)
    (hep : ep = (NewGrpcEndpoint w0 now conn serviceID serviceName method grpcReply).2)
    (hr : r ∈ (ep.call w envs request).2.sent) :
    r.md.Get "Service-Id" = [serviceID] ∧
    r.md.Get ServiceIdHeader = [serviceID] ∧
    r.method = "/" ++ serviceName ++ "/" ++ method ∧
    r.payload = request := by
  have hmax : ep.retryMax = 1 := by rw [hep]; rfl
  have hcl : ep.client = (⟨"/" ++ serviceName ++ "/" ++ method,
      [.SetRequestHeader ServiceIdHeader serviceID]⟩ : TransportClient) := by rw [hep]; rfl
  rw [(call_eq_guarded ep hmax w envs request).2.1] at hr
  cases hadm : (w.breakers ep.breaker).admits (envs 1).tBefore with
  | false => rw [guarded_rejected ep w (envs 1) request hadm] at hr; simp at hr
  | true =>
    rw [guarded_admitted ep w (envs 1) request hadm, transport_endpoint_eq] at hr
    simp only [List.mem_map] at hr
    obtain ⟨m, hm, hreq⟩ := hr
    obtain ⟨i, hi⟩ := retry_sent_mem ep.conn ep.client.metadata (envs 1).attempts m hm
    rw [hcl, service_id_metadata] at hi
    subst hreq
    subst hi
    have h2 : ServiceIdHeader = "Service-Id" := rfl
    rw [hcl, h2]
    exact ⟨service_id_kept serviceID _ i, service_id_kept serviceID _ i, rfl, rfl⟩

/-- C5, witness: the service is down and a call through `endpointOne`, built
with service id `room-service`, sends three requests.  Each carries
`service-id: room-service`; the second and the third also carry the number
of the retry.  An endpoint built with a service id that is not printable
ASCII sends nothing: gRPC refuses the metadata. -/
theorem service_id_header_witness :
    (endpointOne.call worldOne (triesAt 0 (attemptsAll (some down))) "ping").2.sent.map
        (fun r => r.md)
      = [[("service-id", ["room-service"])],
         [("service-id", ["room-service"]), ("x-retry-attempt", ["1"])],
         [("service-id", ["room-service"]), ("x-retry-attempt", ["2"])]] ∧
    MD.Get [("service-id", ["room-service"]), ("x-retry-attempt", ["2"])] "Service-Id"
      = ["room-service"] ∧
    ((NewGrpcEndpoint emptyWorld 0 (dialed "room:5000") "rööm" "chat.Room" "Get" "").2.call
      worldOne (triesAt 0 (attemptsAll none)) "ping").2.sent.length = 0 := by
  have hs : (endpointOne.call worldOne (triesAt 0 (attemptsAll (some down))) "ping").2.sent
      = [⟨"/chat.Room/Get", [("service-id", ["room-service"])], "ping"⟩,
         ⟨"/chat.Room/Get", [("service-id", ["room-service"]), ("x-retry-attempt", ["1"])],
           "ping"⟩,
         ⟨"/chat.Room/Get", [("service-id", ["room-service"]), ("x-retry-attempt", ["2"])],
           "ping"⟩] := by rfl
  have h := service_id_header_on_every_request (dialed "room:5000") emptyWorld 0
    "room-service" "chat.Room" "Get" "" endpointOne worldOne
    (triesAt 0 (attemptsAll (some down))) "ping"
    ⟨"/chat.Room/Get", [("service-id", ["room-service"]), ("x-retry-attempt", ["2"])], "ping"⟩
    rfl (by rw [hs]; simp)
  exact ⟨by rw [hs]; rfl, h.1, by decide⟩

/-! ## Endpoint: circuit breaker -/

/-- C6 (amended): every call of `NewGrpcEndpoint` allocates a breaker of its
own, closed, named `<serviceName>.<method>`, with a timeout of 60 s, and
leaves the breakers that exist alone; an endpoint built later, in a world
`w1` that has seen the first allocation, gets a different breaker also when
it is built for the same `(serviceName, method)`.  A call through an
endpoint changes no breaker but the endpoint's own, and what the call sends
and returns depends on the world only through that breaker: calls through
one endpoint share its breaker, calls through different endpoints are
independent. -/
theorem breaker_is_per_endpoint {α β : Type} (w0 w1 : World) (now now2 : Nat)
    (conn conn2 : ClientConn) (serviceID serviceID2 serviceName method : String)
    (grpcReply grpcReply2 : β) (ep : Endpoint) (w : World) (envs : Nat → CallEnv β)
    (request : α) :
    ((NewGrpcEndpoint w0 now conn serviceID serviceName method grpcReply).1.breakers
        (NewGrpcEndpoint w0 now conn serviceID serviceName method grpcReply).2.breaker)
      = { name := serviceName ++ "." ++ method, maxRequests := 1, interval := 0,
          timeout := 60 * Second, state := .StateClosed, generation := 1,
          counts := gobreaker.Counts.clear, expiry := none } ∧
    (NewGrpcEndpoint w0 now conn serviceID serviceName method grpcReply).2.breaker = w0.next ∧
    (NewGrpcEndpoint w0 now conn serviceID serviceName method grpcReply).1.next = w0.next + 1 ∧
    (∀ a, a ≠ w0.next →
      (NewGrpcEndpoint w0 now conn serviceID serviceName method grpcReply).1.breakers a
        = w0.breakers a) ∧
    ((NewGrpcEndpoint w0 now conn serviceID serviceName method grpcReply).1.next ≤ w1.next →
      (NewGrpcEndpoint w1 now2 conn2 serviceID2 serviceName method grpcReply2).2.breaker
        ≠ (NewGrpcEndpoint w0 now conn serviceID serviceName method grpcReply).2.breaker) ∧
    (∀ a, a ≠ ep.breaker → (ep.call w envs request).1.breakers a = w.breakers a) ∧
    (ep.call w envs request).1.next = w.next ∧
    (∀ w2 : World, w2.breakers ep.breaker = w.breakers ep.breaker →
      (ep.call w2 envs request).2.sent = (ep.call w envs request).2.sent ∧
      (ep.call w2 envs request).2.response = (ep.call w envs request).2.response ∧
      (ep.call w2 envs request).1.breakers ep.breaker
        = (ep.call w envs request).1.breakers ep.breaker) := by
  refine ⟨?_, rfl, rfl, ?_, ?_, ?_, ?_, ?_⟩
  · simp [NewGrpcEndpoint, gobreaker.NewCircuitBreaker, gobreaker.CircuitBreaker.toNewGeneration,
      Second]
  · intro a ha
    simp [NewGrpcEndpoint, ha]
  · intro h
    have h1 : w0.next + 1 ≤ w1.next := h
    show w1.next ≠ w0.next
    omega
  · exact (retryLoop_frame ep envs request (ep.retryMax - 1) 1 w [] []).1
  · exact (retryLoop_frame ep envs request (ep.retryMax - 1) 1 w [] []).2
  · intro w2 hw
    exact retryLoop_local ep envs request (ep.retryMax - 1) 1 w w2 [] [] hw

/-- C6, counterexample: `endpointOne` and `endpointTwo` are built for the same
`(serviceName, method)` and their breakers have the same name, yet they are
two breakers.  After six failed calls through `endpointOne`, the last one
over at 55 s, its breaker is open and the breaker of `endpointTwo` is still
closed with nothing counted: at 60 s the same call is turned away by the
first endpoint without a request being sent, and goes through the second. -/
theorem same_key_endpoints_have_separate_breakers :
    endpointOne.client.method = endpointTwo.client.method ∧
    (worldTwo.breakers endpointOne.breaker).name = "chat.Room.Get" ∧
    (worldTwo.breakers endpointTwo.breaker).name = "chat.Room.Get" ∧
    endpointOne.breaker ≠ endpointTwo.breaker ∧
    ((afterFailures endpointOne 6 worldTwo).breakers endpointOne.breaker).state = .StateOpen ∧
    ((afterFailures endpointOne 6 worldTwo).breakers endpointTwo.breaker).state = .StateClosed ∧
    ((afterFailures endpointOne 6 worldTwo).breakers endpointTwo.breaker).counts
      = gobreaker.Counts.clear ∧
    (endpointOne.call (afterFailures endpointOne 6 worldTwo)
      (triesAt (60 * Second) (attemptsAll none)) "ping").2.sent.length = 0 ∧
    (endpointOne.call (afterFailures endpointOne 6 worldTwo)
      (triesAt (60 * Second) (attemptsAll none)) "ping").2.response
      = .error (.retryError [.errOpenState] .errOpenState) ∧
    (endpointTwo.call (afterFailures endpointOne 6 worldTwo)
      (triesAt (60 * Second) (attemptsAll none)) "ping").2.sent.length = 1 ∧
    (endpointTwo.call (afterFailures endpointOne 6 worldTwo)
      (triesAt (60 * Second) (attemptsAll none)) "ping").2.response = .ok "pong" := by
  refine ⟨rfl, by decide, by decide, by decide, by decide, by decide, by decide, by decide,
    rfl, by decide, rfl⟩

/-! ## Encoder, decoder and logger adapter -/

/-- C9: for every context and every value, `encodeGRPCRequest` and
`decodeGRPCResponse` return the value itself with a nil error, and the
result is the same under any other context. -/
theorem encode_decode_pass_through {Ctx α : Type} (ctx : Ctx) (v : α) :
    (encodeGRPCRequest ctx v).value = v ∧ (encodeGRPCRequest ctx v).err = none ∧
    (decodeGRPCResponse ctx v).value = v ∧ (decodeGRPCResponse ctx v).err = none ∧
    (∀ ctx2 : Ctx, encodeGRPCRequest ctx2 v = encodeGRPCRequest ctx v ∧
      decodeGRPCResponse ctx2 v = decodeGRPCResponse ctx v) :=
  ⟨rfl, rfl, rfl, rfl, fun _ => ⟨rfl, rfl⟩⟩

/-- C10: the adapter returned by `interceptorLogger` panics exactly when the
level is none of Debug, Info, Warn, Error; for each of these four levels it
makes one call of the method of the same name on the injected logger, with
the message and the fields as given. -/
theorem interceptorLogger_dispatch (l : GrpcLog) (lvl : Level) (msg : String)
    (fields : List Any) :
    ((∃ p, interceptorLogger l lvl msg fields = .error p) ↔
      (lvl ≠ LevelDebug ∧ lvl ≠ LevelInfo ∧ lvl ≠ LevelWarn ∧ lvl ≠ LevelError)) ∧
    interceptorLogger l LevelDebug msg fields = .ok ⟨l.calls ++ [⟨.Debug, msg, fields⟩]⟩ ∧
    interceptorLogger l LevelInfo msg fields = .ok ⟨l.calls ++ [⟨.Info, msg, fields⟩]⟩ ∧
    interceptorLogger l LevelWarn msg fields = .ok ⟨l.calls ++ [⟨.Warn, msg, fields⟩]⟩ ∧
    interceptorLogger l LevelError msg fields = .ok ⟨l.calls ++ [⟨.Error, msg, fields⟩]⟩ := by
  refine ⟨?_, rfl, rfl, rfl, rfl⟩
  unfold interceptorLogger
  constructor
  · rintro ⟨p, hp⟩
    by_cases h1 : lvl = LevelDebug
    · rw [if_pos h1] at hp; cases hp
    by_cases h2 : lvl = LevelInfo
    · rw [if_neg h1, if_pos h2] at hp; cases hp
    by_cases h3 : lvl = LevelWarn
    · rw [if_neg h1, if_neg h2, if_pos h3] at hp; cases hp
    by_cases h4 : lvl = LevelError
    · rw [if_neg h1, if_neg h2, if_neg h3, if_pos h4] at hp; cases hp
    exact ⟨h1, h2, h3, h4⟩
  · rintro ⟨h1, h2, h3, h4⟩
    refine ⟨.str ("unknown level " ++ toString lvl), ?_⟩
    rw [if_neg h1, if_neg h2, if_neg h3, if_neg h4]

end Chatroom
